import Mathlib

/-!
Verification of the pulse-detection pipeline (median smoother, dual peak
follower, DC blocker, OOK state machine) against its specification.

The C sources are shallowly embedded: machine integers become `Int` with an
explicit wrap at every `int16_t` conversion, C `/` on integers becomes
`Int.tdiv` (truncation toward zero), `double` arithmetic becomes exact
fraction arithmetic over `Int` (the `Frac` type below), and the hot loop of
`pulse_detect_package` becomes structural recursion over the list of sample
indices it consumes.
-/

/-- Wrap an integer to the range of a C `int16_t`, as every assignment to an
`int16_t` variable does in the source. -/
def toI16 (x : Int) : Int :=
  Int.emod (x + 32768) 65536 - 32768

/-- Exact fraction arithmetic standing in for the C `double` values of the
peak follower.  Values are unnormalised pairs; every constructor used by the
model keeps the denominator positive. -/
structure Frac where
  num : Int
  den : Int
deriving DecidableEq

/-- Embed an integer sample into `Frac`, as the C conversion
`double fsample = sample` does. -/
def Frac.ofInt (n : Int) : Frac := ⟨n, 1⟩

def Frac.mul (a b : Frac) : Frac := ⟨a.num * b.num, a.den * b.den⟩

def Frac.add (a b : Frac) : Frac := ⟨a.num * b.den + b.num * a.den, a.den * b.den⟩

def Frac.sub (a b : Frac) : Frac := ⟨a.num * b.den - b.num * a.den, a.den * b.den⟩

/-- Order on fractions with positive denominators, by cross multiplication. -/
def Frac.lt (a b : Frac) : Prop := a.num * b.den < b.num * a.den

instance (a b : Frac) : Decidable (Frac.lt a b) := by
  unfold Frac.lt; infer_instance

/-- Absolute value, as C `fabs` (valid for positive denominators). -/
def Frac.abs (a : Frac) : Frac := ⟨|a.num|, a.den⟩

/-- The C cast `(int16_t)x` from a `double`: truncation toward zero
(valid for positive denominators). -/
def Frac.trunc (a : Frac) : Int := Int.tdiv a.num a.den

/-- Rounding to nearest (half away from zero rounds up), used to state the
specification's `round`; not used by the embedded code itself. -/
def Frac.roundNearest (a : Frac) : Int := Int.ediv (2 * a.num + a.den) (2 * a.den)

/-!
## Median smoother (src/median_filter.c)

`median_filter_t` keeps `window_size` and the array `values` of the last
`window_size` samples, most recent first.  The scratch array `temp_values`
exists only for the duration of one `qsort` call and is not part of the
state.  The C `qsort` with an ascending `int16_t` comparator is modelled by
an ascending insertion sort (any correct ascending sort computes the same
list).
-/

def insertSorted (x : Int) : List Int → List Int
  | [] => [x]
  | y :: ys => if x ≤ y then x :: y :: ys else y :: insertSorted x ys

/-- Ascending sort, modelling the `qsort(..., compare_int16)` call. -/
def sortInts : List Int → List Int
  | [] => []
  | x :: xs => insertSorted x (sortInts xs)

structure MedianFilter where
  window_size : Nat
  values : List Int
deriving DecidableEq

/-- `median_filter_create`: window of `w` zeroes. -/
def median_filter_create (w : Nat) : MedianFilter :=
  ⟨w, List.replicate w 0⟩

/-- `median_filter_process`: shift the window (dropping the oldest value),
insert the new sample at index 0, sort a copy ascending and return the
element at index `window_size / 2`. -/
def median_filter_process (fl : MedianFilter) (sample : Int) : MedianFilter × Int :=
  let values := (sample :: fl.values).take fl.window_size
  (⟨fl.window_size, values⟩, (sortInts values).getD (fl.window_size / 2) 0)

/-- Outputs of feeding a list of samples through the median filter. -/
def median_filter_run (fl : MedianFilter) : List Int → List Int
  | [] => []
  | x :: xs =>
    let r := median_filter_process fl x
    r.2 :: median_filter_run r.1 xs

/-- The specification's stateless description of the smoother: the output at
step n is the median of the last W inputs, zero padded when fewer than W
inputs have arrived, where the median is the element at index W / 2 of the
window sorted ascending. -/
def medianOfWindow (w : Nat) (xs : List Int) : Int :=
  (sortInts ((xs.reverse ++ List.replicate w 0).take w)).getD (w / 2) 0

/-!
## Peak follower (two-sided variant wired into pulse_detect.c)

`peak_follower_t` carries `attack_rate`, `release_rate`, both peaks and
`min_val`, all `double` in C, here `Frac`.  `peak_follower_process` takes
the two out-parameters; the model passes their current values in and
returns their values after the call.  The C function assigns only
`*high_peak`; `*low_peak` is returned unchanged.
-/

structure PeakFollower where
  attack_rate : Frac
  release_rate : Frac
  current_high_peak : Frac
  current_low_peak : Frac
  min_val : Frac
deriving DecidableEq

/-- `peak_follower_process`: attack/release update of both peaks, then the
gated report of the high peak.  `high_cell` and `low_cell` are the values
held by the caller's two out-parameter variables before the call; the
returned pair gives their values after the call. -/
def peak_follower_process (f : PeakFollower) (sample : Int) (high_cell low_cell : Int) :
    PeakFollower × Int × Int :=
  let fsample := Frac.ofInt sample
  let one : Frac := ⟨1, 1⟩
  let hp :=
    if Frac.lt f.current_high_peak fsample then
      Frac.add (Frac.mul f.attack_rate f.current_high_peak)
        (Frac.mul (Frac.sub one f.attack_rate) fsample)
    else
      Frac.mul f.release_rate f.current_high_peak
  let lp :=
    if Frac.lt fsample f.current_low_peak then
      Frac.add (Frac.mul f.attack_rate f.current_low_peak)
        (Frac.mul (Frac.sub one f.attack_rate) fsample)
    else
      Frac.mul f.release_rate f.current_low_peak
  let f' := { f with current_high_peak := hp, current_low_peak := lp }
  let high := if Frac.lt (Frac.abs hp) f.min_val then 0 else toI16 (Frac.trunc hp)
  (f', high, low_cell)

/-!
## DC blocker (src/dc_blocker.c)
-/

structure DcBlocker where
  buffer : List Int
  sum : Int
  buffer_length : Nat
  index : Nat
deriving DecidableEq

/-- `dc_blocker_create`: zeroed ring of the requested length. -/
def dc_blocker_create (n : Nat) : DcBlocker :=
  ⟨List.replicate n 0, 0, n, 0⟩

/-- `dc_blocker_filter`: subtract the outgoing element from the running sum,
overwrite it with the sample, add the sample to the sum, advance the index
modulo the length, and return `sample - (int16_t)(sum / buffer_length)`
(C truncating division, with the `int16_t` wraps of the source). -/
def dc_blocker_filter (b : DcBlocker) (sample : Int) : DcBlocker × Int :=
  let sum1 := b.sum - b.buffer.getD b.index 0
  let buffer := b.buffer.set b.index sample
  let sum2 := sum1 + sample
  let index := (b.index + 1) % b.buffer_length
  let mean := toI16 (Int.tdiv sum2 (b.buffer_length : Int))
  (⟨buffer, sum2, b.buffer_length, index⟩, toI16 (sample - mean))

/-!
## Pulse record buffer (pulse_data)

`pulse_data.h` is not part of the sources provided; the record layout and
its clear operation are modelled from the specification (section 3 and 4.F).
The `pulse` and `gap` arrays become total maps from indices to widths.
-/

/-- Modelled from the spec: a pulse record stores up to `PD_MAX_PULSES`
entries of pulse width and gap width plus the side fields `sample_rate`,
`offset`, `start_ago`, `end_ago`, the FSK frequency estimates and the OOK
level estimates. -/
structure PulseData where
  num_pulses : Nat
  pulse : Nat → Int
  gap : Nat → Int
  sample_rate : Nat
  offset : Nat
  start_ago : Int
  end_ago : Int
  fsk_f1_est : Int
  fsk_f2_est : Int
  ook_low_estimate : Int
  ook_high_estimate : Int

/-- Array store, as a C assignment `a[i] = v`. -/
def setIdx (f : Nat → Int) (i : Nat) (v : Int) : Nat → Int :=
  fun j => if j = i then v else f j

/-- Modelled from the spec: the clear operation zeroes `num_pulses`, the
estimates and the offsets (section 4.F); the model zeroes the whole record. -/
def pulse_data_clear : PulseData :=
  ⟨0, fun _ => 0, fun _ => 0, 0, 0, 0, 0, 0, 0, 0, 0⟩

/-- Contents of a record as seen by a downstream decoder: the entry count
and the pulse and gap widths.  The remaining fields are side information. -/
def eraseP (p : PulseData) : Nat × (Nat → Int) × (Nat → Int) :=
  (p.num_pulses, p.pulse, p.gap)

/-!
## Constants

`pulse_detect.h` is not part of the sources provided; the protocol constants
are modelled from the specification (sections 4.E, 6 and 8), with the values
inherited from the surrounding protocol library.
-/

/-- Modelled from the spec: capacity of a pulse record. -/
def pdMaxPulses : Nat := 1200

/-- Modelled from the spec: minimum number of FSK subpulses before a proper
FSK package is declared. -/
def pdMinPulses : Nat := 16

/-- Modelled from the spec: minimum number of samples in a pulse or gap for
proper detection; shorter crossings are spurious. -/
def pdMinPulseSamples : Int := 10

/-- Modelled from the spec: minimum gap in milliseconds for the gap/pulse
ratio rule. -/
def pdMinGapMs : Int := 10

/-- Modelled from the spec: maximum gap in milliseconds before end of
package. -/
def pdMaxGapMs : Int := 100

/-- Modelled from the spec: gap/pulse width ratio that ends a package. -/
def pdMaxGapRatio : Int := 10

/-- OOK_EST_HIGH_RATIO of pulse_detect.c. -/
def ookEstHighRatio : Int := 64

/-- OOK_EST_LOW_RATIO of pulse_detect.c. -/
def ookEstLowRatio : Int := 1024

/-- OOK_MAX_HIGH_LEVEL: modelled from the spec, 0 dB at the full scale
reference 16384. -/
def ookMaxHighLevel : Int := 16384

/-- Modelled from the spec: the package code for an OOK package. -/
def pulseDataOok : Nat := 1

/-- Modelled from the spec: the package code for an FSK package. -/
def pulseDataFsk : Nat := 2

/-!
## FSK sub-detector

`pulse_detect_fsk.c` is not part of the sources provided.  The state and the
classic, minmax and wrap-up operations are modelled from the specification
(section 4.D): rolling estimates `fm_f1_est` and `fm_f2_est`, running
min/max for the minmax variant, classification of each FM sample, and the
emission of a subpulse width into the FSK record on a classification flip,
respecting the record capacity (section 4.F: no growth past
`PD_MAX_PULSES`).
-/

/-- Modelled from the spec: internal state of the FSK sub-detector. -/
structure PulseDetectFsk where
  fm_f1_est : Int
  fm_f2_est : Int
  fm_min : Int
  fm_max : Int
  in_f2 : Bool
  subpulse_length : Int
deriving DecidableEq

/-- Modelled from the spec: `pulse_detect_fsk_init` resets the sub-detector
for a new package. -/
def pulse_detect_fsk_init : PulseDetectFsk :=
  ⟨0, 0, 0, 0, false, 0⟩

/-- Modelled from the spec: a completed subpulse is emitted into the FSK
record; a tone-1 subpulse stores a pulse width, a tone-2 subpulse stores the
matching gap width and advances `num_pulses`.  Nothing is stored once the
record is full. -/
def fsk_emit_subpulse (fsk : PulseDetectFsk) (p : PulseData) : PulseDetectFsk × PulseData :=
  let fsk' := { fsk with in_f2 := !fsk.in_f2, subpulse_length := 0 }
  if p.num_pulses < pdMaxPulses then
    if fsk.in_f2 then
      (fsk', { p with gap := setIdx p.gap p.num_pulses fsk.subpulse_length,
                      num_pulses := p.num_pulses + 1 })
    else
      (fsk', { p with pulse := setIdx p.pulse p.num_pulses fsk.subpulse_length })
  else
    (fsk', p)

/-- Modelled from the spec: the classic variant classifies the FM sample by
the nearest rolling estimate, leaks that estimate toward the sample, and on
a classification flip emits the elapsed subpulse and starts counting the
new one. -/
def pulse_detect_fsk_classic (fsk : PulseDetectFsk) (fm_n : Int) (p : PulseData) :
    PulseDetectFsk × PulseData :=
  let nearF2 := |fm_n - fsk.fm_f2_est| < |fm_n - fsk.fm_f1_est|
  let fsk :=
    if nearF2 then
      { fsk with fm_f2_est := fsk.fm_f2_est + Int.tdiv (fm_n - fsk.fm_f2_est) ookEstHighRatio }
    else
      { fsk with fm_f1_est := fsk.fm_f1_est + Int.tdiv (fm_n - fsk.fm_f1_est) ookEstHighRatio }
  if nearF2 = fsk.in_f2 then
    ({ fsk with subpulse_length := fsk.subpulse_length + 1 }, p)
  else
    let r := fsk_emit_subpulse fsk p
    ({ r.1 with subpulse_length := 1 }, r.2)

/-- Modelled from the spec: the minmax variant tracks the running min and
max of the FM samples and classifies by their midpoint; it needs no
wrap-up. -/
def pulse_detect_fsk_minmax (fsk : PulseDetectFsk) (fm_n : Int) (p : PulseData) :
    PulseDetectFsk × PulseData :=
  let fsk := { fsk with fm_min := min fsk.fm_min fm_n, fm_max := max fsk.fm_max fm_n }
  let mid := Int.tdiv (fsk.fm_min + fsk.fm_max) 2
  let isF2 := fm_n < mid
  if isF2 = fsk.in_f2 then
    ({ fsk with subpulse_length := fsk.subpulse_length + 1 }, p)
  else
    let r := fsk_emit_subpulse fsk p
    ({ r.1 with subpulse_length := 1 }, r.2)

/-- Modelled from the spec: `pulse_detect_fsk_wrap_up` flushes the trailing
subpulse of the classic variant into the record. -/
def pulse_detect_fsk_wrap_up (fsk : PulseDetectFsk) (p : PulseData) :
    PulseDetectFsk × PulseData :=
  fsk_emit_subpulse fsk p

/-!
## OOK state machine (src/pulse_detect.c)

State of `struct pulse_detect`.  The fields that only feed the debug
histogram or the WAV debug sinks (`use_mag_est`, `verbosity`, the six
`wav_dumper` handles and the function-local `out_am`/`out_fm` square waves)
do not influence the returned packages and are not modelled; neither are the
`wav_dumper_write_sample` calls.
-/

inductive OokState where
  | idle
  | pulse
  | gap_start
  | gap
deriving DecidableEq

structure PulseDetect where
  ook_fixed_high_level : Int
  ook_min_high_level : Int
  ook_high_low_ratio : Int
  use_peak_follower : Bool
  ook_state : OokState
  pulse_length : Int
  max_pulse : Int
  data_counter : Nat
  lead_in_counter : Int
  ook_low_estimate : Int
  ook_high_estimate : Int
  pulse_detect_fsk : PulseDetectFsk
  median_filter : MedianFilter
  peak_follower : PeakFollower
  peak_follower_fm : PeakFollower

/-- Result of processing one sample: either fall through to the next sample
of the while loop, or return a package code (the C `return` statements,
which leave `data_counter` at the current sample). -/
inductive StepOut where
  | next (s : PulseDetect) (pulses fsk_pulses : PulseData) (eop : Bool)
  | ret (code : Nat) (s : PulseDetect) (pulses fsk_pulses : PulseData)

/-- Threshold derivation of one loop iteration: median filtering of the AM
sample, then either the peak-follower thresholds or the classical estimator
thresholds.  The locals `ook_threshold_high` and `ook_threshold_low` of the
C source are uninitialised; `peak_follower_process` writes only the former
(see the frame theorem below), so the low threshold keeps an indeterminate
stack value, which the model fixes to 0.  The FM peak follower is advanced
as in the source; its outputs feed only the debug sinks. -/
structure Prep where
  s : PulseDetect
  am_n : Int
  thr_hi : Int
  thr_lo : Int

def pulse_detect_prepare (s : PulseDetect) (env_raw : Int) (fm_raw : Int) : Prep :=
  let m := median_filter_process s.median_filter env_raw
  let s := { s with median_filter := m.1 }
  let am_n0 := m.2
  if s.use_peak_follower then
    let r := peak_follower_process s.peak_follower am_n0 0 0
    let s := { s with peak_follower := r.1 }
    let hi := r.2.1
    let lo := r.2.2
    let amp := toI16 (Int.tdiv (hi - lo) 2)
    let center := toI16 (lo + amp)
    let am_n := if hi = 0 then 0 else am_n0
    let rfm := peak_follower_process s.peak_follower_fm fm_raw 0 0
    let s := { s with peak_follower_fm := rfm.1 }
    ⟨s, am_n, toI16 (center + Int.tdiv amp 4), toI16 (center - Int.tdiv amp 4)⟩
  else
    let t0 := toI16 (Int.tdiv (s.ook_low_estimate + s.ook_high_estimate) 2)
    let t := if s.ook_fixed_high_level ≠ 0 then toI16 s.ook_fixed_high_level else t0
    let hyst := Int.tdiv t 8
    ⟨s, am_n0, toI16 (t + hyst), toI16 (t - hyst)⟩

/-- The FSK demodulation step run at the end of the PULSE and GAP_START
cases while `pulses->num_pulses == 0`. -/
def fsk_feed (s : PulseDetect) (f : PulseData) (fm_n : Int) (fpdm_old : Bool) (numP : Nat) :
    PulseDetect × PulseData :=
  if numP = 0 then
    let r :=
      if fpdm_old then pulse_detect_fsk_classic s.pulse_detect_fsk fm_n f
      else pulse_detect_fsk_minmax s.pulse_detect_fsk fm_n f
    ({ s with pulse_detect_fsk := r.1 }, r.2)
  else (s, f)

/-- The PD_OOK_STATE_IDLE case. -/
def ook_idle (s : PulseDetect) (p f : PulseData) (am_n thr_hi : Int)
    (len samp_rate sample_offset : Nat) (eop : Bool) : StepOut :=
  if am_n > thr_hi ∧ s.lead_in_counter > ookEstLowRatio then
    let p := { pulse_data_clear with
               sample_rate := samp_rate,
               offset := sample_offset + s.data_counter,
               start_ago := (len : Int) - (s.data_counter : Int) }
    let f := { pulse_data_clear with
               sample_rate := samp_rate,
               offset := sample_offset + s.data_counter,
               start_ago := (len : Int) - (s.data_counter : Int) }
    let s := { s with
               pulse_length := 0, max_pulse := 0,
               pulse_detect_fsk := pulse_detect_fsk_init, ook_state := .pulse }
    .next s p f eop
  else
    let delta := am_n - s.ook_low_estimate
    let low := s.ook_low_estimate + Int.tdiv delta ookEstLowRatio + (if delta > 0 then 1 else -1)
    let high := min (max (s.ook_high_low_ratio * low) s.ook_min_high_level) ookMaxHighLevel
    let lead := if s.lead_in_counter ≤ ookEstLowRatio then s.lead_in_counter + 1
                else s.lead_in_counter
    .next { s with
            ook_low_estimate := low, ook_high_estimate := high,
            lead_in_counter := lead } p f eop

/-- The PD_OOK_STATE_PULSE case. -/
def ook_pulse (s : PulseDetect) (p f : PulseData) (am_n fm_n thr_lo : Int)
    (fpdm_old : Bool) (eop : Bool) : StepOut :=
  let s := { s with pulse_length := s.pulse_length + 1 }
  let r :=
    if am_n < thr_lo then
      if s.pulse_length < pdMinPulseSamples then
        if p.num_pulses ≤ 1 then
          ({ s with ook_state := .idle }, p, eop)
        else
          ({ s with ook_state := .gap }, p, true)
      else
        ({ s with
           max_pulse := max s.pulse_length s.max_pulse, pulse_length := 0,
           ook_state := .gap_start },
         { p with pulse := setIdx p.pulse p.num_pulses s.pulse_length }, eop)
    else
      ({ s with
         ook_high_estimate :=
           min (max (s.ook_high_estimate + Int.tdiv am_n ookEstHighRatio
                      - Int.tdiv s.ook_high_estimate ookEstHighRatio)
                  s.ook_min_high_level)
               ookMaxHighLevel },
       { p with
         fsk_f1_est := p.fsk_f1_est + Int.tdiv fm_n ookEstHighRatio
                         - Int.tdiv p.fsk_f1_est ookEstHighRatio }, eop)
  let d := fsk_feed r.1 f fm_n fpdm_old r.2.1.num_pulses
  .next d.1 r.2.1 d.2 r.2.2

/-- The PD_OOK_STATE_GAP_START case. -/
def ook_gap_start (s : PulseDetect) (p f : PulseData) (am_n fm_n thr_hi : Int)
    (len : Nat) (fpdm_old : Bool) (eop : Bool) : StepOut :=
  let s := { s with pulse_length := s.pulse_length + 1 }
  if am_n > thr_hi then
    let s := { s with
               pulse_length := s.pulse_length + p.pulse p.num_pulses,
               ook_state := .pulse }
    let d := fsk_feed s f fm_n fpdm_old p.num_pulses
    .next d.1 p d.2 eop
  else
    if s.pulse_length ≥ pdMinPulseSamples then
      let s := { s with ook_state := .gap }
      if f.num_pulses > pdMinPulses then
        let w := if fpdm_old then pulse_detect_fsk_wrap_up s.pulse_detect_fsk f
                 else (s.pulse_detect_fsk, f)
        let f := { w.2 with
                   fsk_f1_est := w.1.fm_f1_est, fsk_f2_est := w.1.fm_f2_est,
                   ook_low_estimate := s.ook_low_estimate,
                   ook_high_estimate := s.ook_high_estimate,
                   end_ago := (len : Int) - (s.data_counter : Int) }
        let p := { p with end_ago := (len : Int) - (s.data_counter : Int) }
        let s := { s with pulse_detect_fsk := w.1, ook_state := .idle }
        .ret pulseDataFsk s p f
      else
        let d := fsk_feed s f fm_n fpdm_old p.num_pulses
        .next d.1 p d.2 eop
    else
      let d := fsk_feed s f fm_n fpdm_old p.num_pulses
      .next d.1 p d.2 eop

/-- The PD_OOK_STATE_GAP case. -/
def ook_gap (s : PulseDetect) (p f : PulseData) (am_n thr_hi : Int)
    (len samp_rate : Nat) (eop : Bool) : StepOut :=
  let s := { s with pulse_length := s.pulse_length + 1 }
  let r :=
    if am_n > thr_hi then
      let p := { p with
                 gap := setIdx p.gap p.num_pulses s.pulse_length,
                 num_pulses := p.num_pulses + 1 }
      if p.num_pulses ≥ pdMaxPulses then
        (true,
         { s with ook_state := .idle },
         { p with
           ook_low_estimate := s.ook_low_estimate,
           ook_high_estimate := s.ook_high_estimate,
           end_ago := (len : Int) - (s.data_counter : Int) })
      else
        (false, { s with pulse_length := 0, ook_state := .pulse }, p)
    else
      (false, s, p)
  if r.1 then
    .ret pulseDataOok r.2.1 r.2.2 f
  else
    let s := r.2.1
    let p := r.2.2
    let spms : Int := ((samp_rate / 1000 : Nat) : Int)
    if eop = true
        ∨ (s.pulse_length > pdMaxGapRatio * s.max_pulse
            ∧ s.pulse_length > pdMinGapMs * spms)
        ∨ s.pulse_length > pdMaxGapMs * spms then
      let p := { p with
                 gap := setIdx p.gap p.num_pulses s.pulse_length,
                 num_pulses := p.num_pulses + 1,
                 ook_low_estimate := s.ook_low_estimate,
                 ook_high_estimate := s.ook_high_estimate,
                 end_ago := (len : Int) - (s.data_counter : Int) }
      .ret pulseDataOok { s with ook_state := .idle } p f
    else
      .next s p f eop

/-- One iteration of the while loop of `pulse_detect_package`: threshold
derivation followed by the OOK state machine switch.  The C default case
(unknown state) is unrepresentable in the sum type. -/
def pulse_detect_step (s : PulseDetect) (p f : PulseData) (env_raw fm_raw : Int)
    (len samp_rate sample_offset : Nat) (fpdm_old : Bool) (eop : Bool) : StepOut :=
  let pr := pulse_detect_prepare s env_raw fm_raw
  match pr.s.ook_state with
  | .idle => ook_idle pr.s p f pr.am_n pr.thr_hi len samp_rate sample_offset eop
  | .pulse => ook_pulse pr.s p f pr.am_n fm_raw pr.thr_lo fpdm_old eop
  | .gap_start => ook_gap_start pr.s p f pr.am_n fm_raw pr.thr_hi len fpdm_old eop
  | .gap => ook_gap pr.s p f pr.am_n pr.thr_hi len samp_rate eop

/-!
## The while loop and the entry point

The while loop of `pulse_detect_package` consumes the sample indices
`data_counter, data_counter + 1, ..., len - 1` in order; a `return`
leaves `data_counter` at the sample that triggered it, falling out of the
loop resets `data_counter` to 0.  The loop is embedded as structural
recursion over that index list; `trace` records the indices processed so
far (the consumption order of the call).
-/

inductive ChunkOut where
  | more (s : PulseDetect) (pulses fsk_pulses : PulseData) (eop : Bool) (trace : List Nat)
  | ret (code : Nat) (s : PulseDetect) (pulses fsk_pulses : PulseData) (trace : List Nat)

def pulse_detect_chunk (env fm : List Int) (len samp_rate sample_offset : Nat)
    (fpdm_old : Bool) :
    List Nat → PulseDetect → PulseData → PulseData → Bool → List Nat → ChunkOut
  | [], s, p, f, eop, tr => .more s p f eop tr
  | d :: rest, s, p, f, eop, tr =>
    match pulse_detect_step { s with data_counter := d } p f (env.getD d 0) (fm.getD d 0)
        len samp_rate sample_offset fpdm_old eop with
    | .next s' p' f' eop' =>
      pulse_detect_chunk env fm len samp_rate sample_offset fpdm_old rest s' p' f' eop'
        (tr ++ [d])
    | .ret code s' p' f' => .ret code s' p' f' (tr ++ [d])

/-- Result of one call of `pulse_detect_package`: the returned code, the
detector state and both records after the call, the consumed sample
indices, and the value the call-local `eop_on_spurious` flag had when the
call ended (instrumentation used to state the buffer-boundary theorems). -/
structure PackageOut where
  code : Nat
  s : PulseDetect
  pulses : PulseData
  fsk_pulses : PulseData
  trace : List Nat
  eop_final : Bool

/-- `pulse_detect_package`: raise the high estimate to the configured
minimum, age `start_ago` of both records when the buffer is fresh, then run
the while loop from the preserved `data_counter` with the call-local
`eop_on_spurious` flag starting at 0. -/
def pulse_detect_package (s : PulseDetect) (p f : PulseData) (env fm : List Int)
    (len samp_rate sample_offset : Nat) (fpdm_old : Bool) : PackageOut :=
  let s := { s with ook_high_estimate := max s.ook_high_estimate s.ook_min_high_level }
  let p := if s.data_counter = 0 then { p with start_ago := p.start_ago + len } else p
  let f := if s.data_counter = 0 then { f with start_ago := f.start_ago + len } else f
  match pulse_detect_chunk env fm len samp_rate sample_offset fpdm_old
      (List.range' s.data_counter (len - s.data_counter)) s p f false [] with
  | .more s' p' f' eop tr => ⟨0, { s' with data_counter := 0 }, p', f', tr, eop⟩
  | .ret code s' p' f' tr => ⟨code, s', p', f', tr, false⟩

/-!
## The calling protocol

Section 6 of the specification: after a non-zero return the caller calls
again with the same buffer (the detector resumes at its preserved
`data_counter`); a zero return means the buffer is consumed and the caller
moves to its next buffer.  `CallsEmit` is the graph of that protocol on one
buffer, collecting the emitted packages (code plus record contents) and
exposing the final state and the `eop_on_spurious` value of the terminating
zero-return call.  `BufsEmit` chains it over a list of buffers.
-/

inductive CallsEmit (env fm : List Int) (samp_rate sample_offset : Nat) (fpdm_old : Bool) :
    PulseDetect → PulseData → PulseData →
    List (Nat × (Nat × (Nat → Int) × (Nat → Int)) × (Nat × (Nat → Int) × (Nat → Int))) →
    PulseDetect → PulseData → PulseData → Bool → Prop where
  | exhaust : ∀ s p f,
      (pulse_detect_package s p f env fm env.length samp_rate sample_offset fpdm_old).code
        = 0 →
      CallsEmit env fm samp_rate sample_offset fpdm_old s p f []
        (pulse_detect_package s p f env fm env.length samp_rate sample_offset fpdm_old).s
        (pulse_detect_package s p f env fm env.length samp_rate sample_offset fpdm_old).pulses
        (pulse_detect_package s p f env fm env.length samp_rate sample_offset fpdm_old).fsk_pulses
        (pulse_detect_package s p f env fm env.length samp_rate sample_offset fpdm_old).eop_final
  | emit : ∀ s p f outs sF pF fF e,
      (pulse_detect_package s p f env fm env.length samp_rate sample_offset fpdm_old).code
        ≠ 0 →
      CallsEmit env fm samp_rate sample_offset fpdm_old
        (pulse_detect_package s p f env fm env.length samp_rate sample_offset fpdm_old).s
        (pulse_detect_package s p f env fm env.length samp_rate sample_offset fpdm_old).pulses
        (pulse_detect_package s p f env fm env.length samp_rate sample_offset fpdm_old).fsk_pulses
        outs sF pF fF e →
      CallsEmit env fm samp_rate sample_offset fpdm_old s p f
        (((pulse_detect_package s p f env fm env.length samp_rate sample_offset fpdm_old).code,
          eraseP (pulse_detect_package s p f env fm env.length samp_rate sample_offset fpdm_old).pulses,
          eraseP (pulse_detect_package s p f env fm env.length samp_rate sample_offset fpdm_old).fsk_pulses)
          :: outs)
        sF pF fF e

inductive BufsEmit (samp_rate sample_offset : Nat) (fpdm_old : Bool) :
    PulseDetect → PulseData → PulseData → List (List Int × List Int) →
    List (Nat × (Nat × (Nat → Int) × (Nat → Int)) × (Nat × (Nat → Int) × (Nat → Int))) →
    Prop where
  | nil : ∀ s p f, BufsEmit samp_rate sample_offset fpdm_old s p f [] []
  | cons : ∀ s p f b bufs outs1 outs2 sF pF fF e,
      CallsEmit b.1 b.2 samp_rate sample_offset fpdm_old s p f outs1 sF pF fF e →
      BufsEmit samp_rate sample_offset fpdm_old sF pF fF bufs outs2 →
      BufsEmit samp_rate sample_offset fpdm_old s p f (b :: bufs) (outs1 ++ outs2)

/-!
## Concrete instances used by the witnesses and counterexamples

A stationary peak follower (attack and release rates equal to 1) keeps its
peaks unchanged, so the derived thresholds stay at `thr_hi = 6250`,
`thr_lo = 3750` throughout a run, which keeps the runs below small and
exactly computable.
-/

def exFollower : PeakFollower := ⟨⟨1, 1⟩, ⟨1, 1⟩, ⟨10000, 1⟩, ⟨0, 1⟩, ⟨100, 1⟩⟩

def exFollowerFm : PeakFollower := ⟨⟨1, 1⟩, ⟨1, 1⟩, ⟨0, 1⟩, ⟨0, 1⟩, ⟨100, 1⟩⟩

/-- A pulse record holding two completed entries of width 12. -/
def exRecord : PulseData :=
  ⟨2, fun i => if i < 2 then 12 else 0, fun i => if i < 2 then 12 else 0,
   0, 0, 0, 0, 0, 0, 0, 0⟩

/-- A detector mid-package: in the PULSE state, 3 samples into the current
(third) pulse, with the lead-in long finished. -/
def exState : PulseDetect where
  ook_fixed_high_level := 0
  ook_min_high_level := 1000
  ook_high_low_ratio := 8
  use_peak_follower := true
  ook_state := .pulse
  pulse_length := 3
  max_pulse := 12
  data_counter := 0
  lead_in_counter := 2000
  ook_low_estimate := 500
  ook_high_estimate := 5000
  pulse_detect_fsk := pulse_detect_fsk_init
  median_filter := ⟨15, List.replicate 15 0⟩
  peak_follower := exFollower
  peak_follower_fm := exFollowerFm

/-- The same detector with a median window that flips from low to high after
one high sample: seven high values followed by eight zeroes. -/
def exStateFlip : PulseDetect :=
  { exState with
    median_filter := ⟨15, List.replicate 7 8000 ++ List.replicate 8 0⟩ }

/-- An idle detector (noise estimation settled, no package in progress). -/
def exStateIdle : PulseDetect := { exState with ook_state := .idle, pulse_length := 0 }

/-!
## Claims about the small components
-/

/-- C10: the two-sided `peak_follower_process` writes only the high-peak
out-parameter; the low-peak out-parameter is never assigned, so the caller's
low-threshold variable keeps whatever value it held before the call. -/
theorem c10_low_peak_frame (f : PeakFollower) (sample high_cell low_cell : Int) :
    (peak_follower_process f sample high_cell low_cell).2.2 = low_cell := rfl

/-- C6, counterexample: with attack rate 1/3, both peaks 0, `min_val` 10,
sample 100 and a low out-parameter holding 7, the function reports high 66
(the truncation of 200/3, not its rounding 67) and leaves the low cell at 7
(not the rounding 0 of the updated low peak). -/
theorem c6_low_report_counterexample :
    (peak_follower_process ⟨⟨1, 3⟩, ⟨1, 1⟩, ⟨0, 1⟩, ⟨0, 1⟩, ⟨10, 1⟩⟩ 100 0 7).2.2 ≠
      Frac.roundNearest (peak_follower_process ⟨⟨1, 3⟩, ⟨1, 1⟩, ⟨0, 1⟩, ⟨0, 1⟩, ⟨10, 1⟩⟩
          100 0 7).1.current_low_peak
    ∧ (peak_follower_process ⟨⟨1, 3⟩, ⟨1, 1⟩, ⟨0, 1⟩, ⟨0, 1⟩, ⟨10, 1⟩⟩ 100 0 7).2.1 ≠
      Frac.roundNearest (peak_follower_process ⟨⟨1, 3⟩, ⟨1, 1⟩, ⟨0, 1⟩, ⟨0, 1⟩, ⟨10, 1⟩⟩
          100 0 7).1.current_high_peak := by
  decide

/-- C6, amended: after the attack/release update of both peaks, the reported
high output is 0 whenever the absolute value of the updated high peak is
below `min_val` and otherwise the `int16_t` truncation of the updated high
peak; the low out-parameter is never written and keeps the caller's value. -/
theorem c6_peak_follower_outputs (f : PeakFollower) (sample high_cell low_cell : Int) :
    (peak_follower_process f sample high_cell low_cell).1.current_high_peak =
      (if Frac.lt f.current_high_peak (Frac.ofInt sample) then
         Frac.add (Frac.mul f.attack_rate f.current_high_peak)
           (Frac.mul (Frac.sub ⟨1, 1⟩ f.attack_rate) (Frac.ofInt sample))
       else Frac.mul f.release_rate f.current_high_peak)
    ∧ (peak_follower_process f sample high_cell low_cell).1.current_low_peak =
      (if Frac.lt (Frac.ofInt sample) f.current_low_peak then
         Frac.add (Frac.mul f.attack_rate f.current_low_peak)
           (Frac.mul (Frac.sub ⟨1, 1⟩ f.attack_rate) (Frac.ofInt sample))
       else Frac.mul f.release_rate f.current_low_peak)
    ∧ (peak_follower_process f sample high_cell low_cell).2.1 =
      (if Frac.lt (Frac.abs (peak_follower_process f sample high_cell low_cell).1.current_high_peak)
            f.min_val then 0
       else toI16 (Frac.trunc (peak_follower_process f sample high_cell low_cell).1.current_high_peak))
    ∧ (peak_follower_process f sample high_cell low_cell).2.2 = low_cell := by
  refine ⟨rfl, rfl, rfl, rfl⟩

/-- Sum of a list after a store, in subtraction form. -/
theorem sum_set_getD (l : List Int) (i : Nat) (a : Int) (h : i < l.length) :
    (l.set i a).sum = l.sum - l.getD i 0 + a := by
  rw [List.sum_set, if_pos h, List.getD_eq_getElem l 0 h]
  have hs := List.sum_take_add_sum_drop l i
  have hd := List.drop_eq_getElem_cons h
  rw [hd] at hs
  simp only [List.sum_cons] at hs
  omega

/-- C8, counterexample: the mean is removed with C truncating division, not
rounding to nearest, and the result wraps as an `int16_t`.  First instance:
length 2, zeroed ring, sample 3 gives output 2, while
`3 - round(3 / 2) = 1`.  Second instance: a ring of three entries -32768 and
sample 32767; the exact value `sample - round(sum / N) = 43690` overflows
and the function returns -21846. -/
theorem c8_round_counterexample :
    ((dc_blocker_filter (dc_blocker_create 2) 3).2 = 2
      ∧ 3 - Frac.roundNearest ⟨3, 2⟩ = 1)
    ∧ ((dc_blocker_filter ⟨[-32768, -32768, -32768], -98304, 3, 0⟩ 32767).2 = -21846
      ∧ 32767 - Frac.roundNearest ⟨-32769, 3⟩ = 43690) := by
  decide

/-- C8, amended: `dc_blocker_filter` stores the sample in the ring slot at
the write index, keeps the running-sum invariant `sum = Σ buffer`, advances
the index modulo the length, and returns the `int16_t` wrap of
`sample - (int16_t)(sum / N)` where the division is the C integer division
(truncation toward zero) of the updated sum. -/
theorem c8_dc_blocker_filter (b : DcBlocker) (sample : Int)
    (hlen : b.buffer.length = b.buffer_length) (hidx : b.index < b.buffer_length)
    (hsum : b.sum = b.buffer.sum) :
    (dc_blocker_filter b sample).1.sum = (dc_blocker_filter b sample).1.buffer.sum
    ∧ (dc_blocker_filter b sample).1.buffer = b.buffer.set b.index sample
    ∧ (dc_blocker_filter b sample).1.index = (b.index + 1) % b.buffer_length
    ∧ (dc_blocker_filter b sample).1.buffer_length = b.buffer_length
    ∧ (dc_blocker_filter b sample).2 =
        toI16 (sample - toI16 (Int.tdiv (b.sum - b.buffer.getD b.index 0 + sample)
          (b.buffer_length : Int))) := by
  refine ⟨?_, rfl, rfl, rfl, rfl⟩
  have h : b.index < b.buffer.length := by omega
  simp only [dc_blocker_filter, sum_set_getD b.buffer b.index sample h, hsum]

/-- C8, witness: the amended theorem applied to a concrete ring. -/
theorem c8_witness :
    (((⟨[4, 9], 13, 2, 1⟩ : DcBlocker).buffer.length = 2 ∧ 1 < 2 ∧ (13 : Int) = [4, 9].sum)
      ∧ (dc_blocker_filter ⟨[4, 9], 13, 2, 1⟩ 6).1.sum
          = (dc_blocker_filter ⟨[4, 9], 13, 2, 1⟩ 6).1.buffer.sum) := by
  refine ⟨⟨by decide, by decide, by decide⟩, ?_⟩
  exact (c8_dc_blocker_filter ⟨[4, 9], 13, 2, 1⟩ 6 (by decide) (by decide) (by decide)).1

/-- Shifting a full window of the last inputs of `ys` and inserting `x` at
the front yields the window of the last inputs of `ys ++ [x]`. -/
theorem median_window_shift (w : Nat) (hw : 0 < w) (ys : List Int) (x : Int) :
    (x :: ((ys.reverse ++ List.replicate w 0).take w)).take w
      = ((ys ++ [x]).reverse ++ List.replicate w 0).take w := by
  obtain ⟨n, rfl⟩ : ∃ n, w = n + 1 := ⟨w - 1, by omega⟩
  rw [List.reverse_append]
  simp only [List.reverse_cons, List.reverse_nil, List.nil_append, List.cons_append,
    List.take_succ_cons, List.take_take]
  rw [Nat.min_eq_left (Nat.le_succ n)]

/-- Outputs of the median filter started on the window of the last inputs of
`ys`: the output at step `n` is the median of the zero-padded window of the
last `w` values of the inputs so far. -/
theorem median_run_getD (w : Nat) (hw : 0 < w) :
    ∀ (xs ys : List Int) (n : Nat), n < xs.length →
      (median_filter_run ⟨w, (ys.reverse ++ List.replicate w 0).take w⟩ xs).getD n 0
        = medianOfWindow w (ys ++ xs.take (n + 1)) := by
  intro xs
  induction xs with
  | nil => intro ys n hn; simp at hn
  | cons x xs ih =>
    intro ys n hn
    cases n with
    | zero =>
      simp only [median_filter_run, median_filter_process, List.getD_cons_zero,
        List.take_succ_cons, List.take_nil, medianOfWindow]
      rw [median_window_shift w hw ys x]
      rfl
    | succ n =>
      have hx : (median_filter_process ⟨w, (ys.reverse ++ List.replicate w 0).take w⟩ x).1
          = ⟨w, ((ys ++ [x]).reverse ++ List.replicate w 0).take w⟩ := by
        simp only [median_filter_process]
        rw [median_window_shift w hw ys x]
      simp only [median_filter_run, List.getD_cons_succ]
      rw [hx, ih (ys ++ [x]) n (by simpa using hn)]
      simp only [List.append_assoc, List.take_succ_cons, List.cons_append, List.nil_append]

/-- C7: for every window size and input stream, the median smoother's output
at step n equals the median of the last W inputs (zero-padded while fewer
than W inputs have arrived): the filter keeps the last W samples and returns
the element at index W / 2 of the ascending sort of the window. -/
theorem c7_median_window (w : Nat) (hw : 0 < w) (xs : List Int) (n : Nat)
    (hn : n < xs.length) :
    (median_filter_run (median_filter_create w) xs).getD n 0
      = medianOfWindow w (xs.take (n + 1)) := by
  have h := median_run_getD w hw xs [] n hn
  simpa [median_filter_create] using h

/-- C7, witness: window size 15 on a short stream. -/
theorem c7_witness :
    (0 < 15 ∧ 2 < ([5, -3, 7] : List Int).length)
    ∧ (median_filter_run (median_filter_create 15) [5, -3, 7]).getD 2 0
        = medianOfWindow 15 ([5, -3, 7].take 3) := by
  refine ⟨⟨by decide, by decide⟩, c7_median_window 15 (by decide) [5, -3, 7] 2 (by decide)⟩

/-!
## Invariants of the OOK state machine

`NumOk` is the inductive bound on the record sizes (claim C1); `StateOkC5`
and `RetOkC5` describe the stored widths (claim C5).  `StateOkC5` requires
the scratch entry `pulse[num_pulses]` to hold a proper width while a gap is
open, except when the gap follows a spurious pulse of the same call, which
the sticky `eop_on_spurious` flag records.
-/

def NumOk (p f : PulseData) : Prop :=
  p.num_pulses < pdMaxPulses ∧ f.num_pulses ≤ pdMaxPulses

def RecordOk (p : PulseData) : Prop :=
  ∀ i, i < p.num_pulses → pdMinPulseSamples ≤ p.pulse i ∧ 1 ≤ p.gap i

def StateOkC5 (s : PulseDetect) (p : PulseData) (eop : Bool) : Prop :=
  RecordOk p
  ∧ 0 ≤ s.pulse_length
  ∧ (s.ook_state = .gap_start → pdMinPulseSamples ≤ p.pulse p.num_pulses)
  ∧ (s.ook_state = .gap → eop = false → pdMinPulseSamples ≤ p.pulse p.num_pulses)

def RetOkC5 (p : PulseData) : Prop :=
  1 ≤ p.num_pulses
  ∧ (∀ i, i + 2 < p.num_pulses → pdMinPulseSamples ≤ p.pulse i)
  ∧ (∀ i, i + 1 < p.num_pulses → 1 ≤ p.gap i)
  ∧ 0 ≤ p.gap (p.num_pulses - 1)

theorem fsk_emit_num (fsk : PulseDetectFsk) (p : PulseData)
    (h : p.num_pulses ≤ pdMaxPulses) :
    (fsk_emit_subpulse fsk p).2.num_pulses ≤ pdMaxPulses := by
  unfold fsk_emit_subpulse
  split_ifs <;> simp_all <;> omega

theorem fsk_classic_num (fsk : PulseDetectFsk) (fm : Int) (p : PulseData)
    (h : p.num_pulses ≤ pdMaxPulses) :
    (pulse_detect_fsk_classic fsk fm p).2.num_pulses ≤ pdMaxPulses := by
  unfold pulse_detect_fsk_classic
  dsimp only
  split_ifs <;> first | exact h | exact fsk_emit_num _ _ h

theorem fsk_minmax_num (fsk : PulseDetectFsk) (fm : Int) (p : PulseData)
    (h : p.num_pulses ≤ pdMaxPulses) :
    (pulse_detect_fsk_minmax fsk fm p).2.num_pulses ≤ pdMaxPulses := by
  unfold pulse_detect_fsk_minmax
  dsimp only
  split_ifs <;> first | exact h | exact fsk_emit_num _ _ h

theorem fsk_feed_num (s : PulseDetect) (f : PulseData) (fm : Int) (fp : Bool) (n : Nat)
    (h : f.num_pulses ≤ pdMaxPulses) :
    (fsk_feed s f fm fp n).2.num_pulses ≤ pdMaxPulses := by
  unfold fsk_feed
  split
  · split
    · exact fsk_classic_num _ _ _ h
    · exact fsk_minmax_num _ _ _ h
  · exact h

/-- The threshold stage changes only the filter and follower fields of the
detector state. -/
theorem prepare_s_eq (s : PulseDetect) (e fmv : Int) :
    ∃ m pf pff, (pulse_detect_prepare s e fmv).s
      = { s with median_filter := m, peak_follower := pf, peak_follower_fm := pff } := by
  unfold pulse_detect_prepare
  dsimp only
  split
  · exact ⟨_, _, _, rfl⟩
  · exact ⟨_, s.peak_follower, s.peak_follower_fm, rfl⟩

/-- The FSK demodulation step changes only the FSK sub-detector state. -/
theorem fsk_feed_s_eq (s : PulseDetect) (f : PulseData) (fm : Int) (fp : Bool) (n : Nat) :
    ∃ k, (fsk_feed s f fm fp n).1 = { s with pulse_detect_fsk := k } := by
  unfold fsk_feed
  split
  · exact ⟨_, rfl⟩
  · exact ⟨s.pulse_detect_fsk, rfl⟩

theorem ook_pulse_spec (s : PulseDetect) (p f : PulseData) (am fm thr : Int)
    (fp : Bool) (eop : Bool) (hst : s.ook_state = .pulse) :
    match ook_pulse s p f am fm thr fp eop with
    | .next s' p' f' eop' =>
        s'.data_counter = s.data_counter
        ∧ (eop = true → eop' = true)
        ∧ (NumOk p f → NumOk p' f')
        ∧ (StateOkC5 s p eop → StateOkC5 s' p' eop')
    | .ret _ _ _ _ => False := by
  simp only [ook_pulse]
  split_ifs with h1 h2 h3
  all_goals
    obtain ⟨k, hk⟩ := fsk_feed_s_eq _ f fm fp _
    rw [hk]
    refine ⟨rfl, ?_, fun hn => ⟨hn.1, fsk_feed_num _ _ _ _ _ hn.2⟩, fun hc => ?_⟩
  case _ => exact fun he => he
  case _ =>
    obtain ⟨hrec, hpl, hgs, hg⟩ := hc
    unfold StateOkC5 RecordOk
    dsimp only
    exact ⟨hrec, by omega, fun h => by simp at h, fun h => by simp at h⟩
  case _ => exact fun _ => rfl
  case _ =>
    obtain ⟨hrec, hpl, hgs, hg⟩ := hc
    unfold StateOkC5 RecordOk
    dsimp only
    exact ⟨hrec, by omega, fun h => by simp at h, fun _ h => by simp at h⟩
  case _ => exact fun he => he
  case _ =>
    obtain ⟨hrec, hpl, hgs, hg⟩ := hc
    unfold StateOkC5 RecordOk
    dsimp only
    refine ⟨?_, by omega, ?_, fun h => by simp at h⟩
    · intro i hi
      simp only [setIdx]
      rw [if_neg (by omega)]
      exact hrec i hi
    · intro _
      simp [setIdx]
      omega
  case _ => exact fun he => he
  case _ =>
    obtain ⟨hrec, hpl, hgs, hg⟩ := hc
    unfold StateOkC5 RecordOk
    dsimp only
    refine ⟨hrec, by omega, fun h => ?_, fun h hf => ?_⟩
    · rw [hst] at h; simp at h
    · rw [hst] at h; simp at h

theorem ook_idle_spec (s : PulseDetect) (p f : PulseData) (am thr : Int)
    (len sr off : Nat) (eop : Bool) (hst : s.ook_state = .idle) :
    match ook_idle s p f am thr len sr off eop with
    | .next s' p' f' eop' =>
        s'.data_counter = s.data_counter
        ∧ eop' = eop
        ∧ (NumOk p f → NumOk p' f')
        ∧ (StateOkC5 s p eop → StateOkC5 s' p' eop')
    | .ret _ _ _ _ => False := by
  by_cases h1 : am > thr ∧ s.lead_in_counter > ookEstLowRatio
  · unfold ook_idle
    rw [if_pos h1]
    refine ⟨rfl, rfl, fun _ => ?_, fun _ => ?_⟩
    · exact ⟨by simp [pulse_data_clear, pdMaxPulses], by simp [pulse_data_clear, pdMaxPulses]⟩
    · unfold StateOkC5 RecordOk
      dsimp only
      refine ⟨fun i hi => ?_, by omega, fun h => by simp at h, fun h => by simp at h⟩
      simp [pulse_data_clear] at hi
  · unfold ook_idle
    rw [if_neg h1]
    refine ⟨rfl, rfl, fun hn => hn, fun hc => ?_⟩
    obtain ⟨hrec, hpl, hgs, hg⟩ := hc
    unfold StateOkC5 RecordOk
    dsimp only
    refine ⟨hrec, by omega, fun h => ?_, fun h hf => ?_⟩
    · rw [hst] at h; simp at h
    · rw [hst] at h; simp at h

theorem fsk_wrap_if_num (c : Bool) (fskS : PulseDetectFsk) (f : PulseData)
    (h : f.num_pulses ≤ pdMaxPulses) :
    (if c = true then pulse_detect_fsk_wrap_up fskS f else (fskS, f)).2.num_pulses
      ≤ pdMaxPulses := by
  split
  · exact fsk_emit_num _ _ h
  · exact h

theorem ook_gap_start_spec (s : PulseDetect) (p f : PulseData) (am fm thr : Int)
    (len : Nat) (fp : Bool) (eop : Bool) (hst : s.ook_state = .gap_start) :
    match ook_gap_start s p f am fm thr len fp eop with
    | .next s' p' f' eop' =>
        s'.data_counter = s.data_counter
        ∧ eop' = eop
        ∧ (NumOk p f → NumOk p' f')
        ∧ (StateOkC5 s p eop → StateOkC5 s' p' eop')
    | .ret c s' p' f' =>
        s'.data_counter = s.data_counter
        ∧ s'.ook_state = .idle
        ∧ (c = pulseDataOok ∨ c = pulseDataFsk)
        ∧ (NumOk p f → p'.num_pulses ≤ pdMaxPulses ∧ f'.num_pulses ≤ pdMaxPulses)
        ∧ (StateOkC5 s p eop → c = pulseDataFsk ∨ RetOkC5 p') := by
  have hmin : pdMinPulseSamples = 10 := rfl
  unfold ook_gap_start
  dsimp only
  by_cases h1 : am > thr
  · -- spurious gap: revert to pulse
    rw [if_pos h1]
    obtain ⟨k, hk⟩ := fsk_feed_s_eq _ f fm fp _
    rw [hk]
    refine ⟨rfl, rfl, fun hn => ⟨hn.1, fsk_feed_num _ _ _ _ _ hn.2⟩, fun hc => ?_⟩
    obtain ⟨hrec, hpl, hgs, hg⟩ := hc
    have hps := hgs hst
    unfold StateOkC5 RecordOk
    dsimp only
    refine ⟨hrec, by omega, fun h => by simp at h, fun h hf => by simp at h⟩
  · rw [if_neg h1]
    by_cases h2 : s.pulse_length + 1 ≥ pdMinPulseSamples
    · rw [if_pos h2]
      by_cases h3 : f.num_pulses > pdMinPulses
      · -- real gap, FSK package finalised and returned
        rw [if_pos h3]
        refine ⟨rfl, rfl, Or.inr rfl, fun hn => ?_, fun _ => Or.inl rfl⟩
        obtain ⟨hn1, hn2⟩ := hn
        refine ⟨by dsimp only; omega, ?_⟩
        dsimp only
        split
        · exact fsk_emit_num _ _ hn2
        · exact hn2
      · -- real gap, stay for OOK decoding
        rw [if_neg h3]
        obtain ⟨k, hk⟩ := fsk_feed_s_eq _ f fm fp _
        rw [hk]
        refine ⟨rfl, rfl, fun hn => ⟨hn.1, fsk_feed_num _ _ _ _ _ hn.2⟩, fun hc => ?_⟩
        obtain ⟨hrec, hpl, hgs, hg⟩ := hc
        have hps := hgs hst
        unfold StateOkC5 RecordOk
        dsimp only
        refine ⟨hrec, by omega, fun h => by simp at h, fun _ _ => hps⟩
    · -- still a candidate spurious gap
      rw [if_neg h2]
      obtain ⟨k, hk⟩ := fsk_feed_s_eq _ f fm fp _
      rw [hk]
      refine ⟨rfl, rfl, fun hn => ⟨hn.1, fsk_feed_num _ _ _ _ _ hn.2⟩, fun hc => ?_⟩
      obtain ⟨hrec, hpl, hgs, hg⟩ := hc
      have hps := hgs hst
      unfold StateOkC5 RecordOk
      dsimp only
      refine ⟨hrec, by omega, fun _ => hps, fun h hf => ?_⟩
      rw [hst] at h
      simp at h

theorem ook_gap_spec (s : PulseDetect) (p f : PulseData) (am thr : Int)
    (len sr : Nat) (eop : Bool) (hst : s.ook_state = .gap) :
    match ook_gap s p f am thr len sr eop with
    | .next s' p' f' eop' =>
        s'.data_counter = s.data_counter
        ∧ eop' = eop
        ∧ (NumOk p f → NumOk p' f')
        ∧ (StateOkC5 s p eop → StateOkC5 s' p' eop')
    | .ret c s' p' f' =>
        s'.data_counter = s.data_counter
        ∧ s'.ook_state = .idle
        ∧ (c = pulseDataOok ∨ c = pulseDataFsk)
        ∧ (NumOk p f → p'.num_pulses ≤ pdMaxPulses ∧ f'.num_pulses ≤ pdMaxPulses)
        ∧ (StateOkC5 s p eop → c = pulseDataFsk ∨ RetOkC5 p') := by
  have hmin : pdMinPulseSamples = 10 := rfl
  unfold ook_gap
  dsimp only
  by_cases h1 : am > thr
  · rw [if_pos h1]
    by_cases h2 : p.num_pulses + 1 ≥ pdMaxPulses
    · -- overflow: immediate end of package
      rw [if_pos h2]
      refine ⟨rfl, rfl, Or.inl rfl, fun hn => ⟨by have hx := hn.1; dsimp only; omega, hn.2⟩,
        fun hc => ?_⟩
      obtain ⟨hrec, hpl, hgs, hg⟩ := hc
      refine Or.inr ⟨by dsimp only; omega, ?_, ?_, ?_⟩
      · intro i hi
        dsimp only at hi ⊢
        exact (hrec i (by omega)).1
      · intro i hi
        dsimp only at hi ⊢
        simp only [setIdx]
        rw [if_neg (by omega)]
        exact (hrec i (by omega)).2
      · dsimp only
        simp [setIdx]
        try omega
    · rw [if_neg h2]
      by_cases h3 : eop = true ∨ ((0 : Int) > pdMaxGapRatio * s.max_pulse
          ∧ (0 : Int) > pdMinGapMs * ((sr / 1000 : Nat) : Int))
          ∨ (0 : Int) > pdMaxGapMs * ((sr / 1000 : Nat) : Int)
      · -- new pulse stored and the sticky flag ends the package at the same sample
        rw [if_pos h3]
        refine ⟨rfl, rfl, Or.inl rfl, fun hn => ⟨by have hx := hn.1; dsimp only; omega, hn.2⟩,
        fun hc => ?_⟩
        obtain ⟨hrec, hpl, hgs, hg⟩ := hc
        refine Or.inr ⟨by dsimp only; omega, ?_, ?_, ?_⟩
        · intro i hi
          dsimp only at hi ⊢
          exact (hrec i (by omega)).1
        · intro i hi
          dsimp only at hi ⊢
          simp only [setIdx]
          rw [if_neg (by omega)]
          by_cases hin : i = p.num_pulses
          · rw [if_pos hin]
            omega
          · rw [if_neg hin]
            exact (hrec i (by omega)).2
        · dsimp only
          simp [setIdx]
          try omega
      · -- new pulse stored, decoding continues
        rw [if_neg h3]
        refine ⟨rfl, rfl, fun hn => ⟨by have hx := hn.1; dsimp only; omega, hn.2⟩, fun hc => ?_⟩
        obtain ⟨hrec, hpl, hgs, hg⟩ := hc
        have heop : eop = false := by
          rcases eop with _ | _
          · rfl
          · exact absurd (Or.inl rfl) h3
        have hps := hg hst heop
        unfold StateOkC5 RecordOk
        dsimp only
        refine ⟨?_, by omega, fun h => by simp at h, fun h hf => by simp at h⟩
        intro i hi
        simp only [setIdx]
        by_cases hin : i = p.num_pulses
        · rw [if_pos hin, hin]
          constructor
          · exact hps
          · omega
        · rw [if_neg hin]
          exact hrec i (by omega)
  · rw [if_neg h1]
    by_cases h3 : eop = true ∨ (s.pulse_length + 1 > pdMaxGapRatio * s.max_pulse
        ∧ s.pulse_length + 1 > pdMinGapMs * ((sr / 1000 : Nat) : Int))
        ∨ s.pulse_length + 1 > pdMaxGapMs * ((sr / 1000 : Nat) : Int)
    · -- the gap ends the package
      rw [if_pos h3]
      refine ⟨rfl, rfl, Or.inl rfl, fun hn => ⟨by have hx := hn.1; dsimp only; omega, hn.2⟩,
        fun hc => ?_⟩
      obtain ⟨hrec, hpl, hgs, hg⟩ := hc
      refine Or.inr ⟨by dsimp only; omega, ?_, ?_, ?_⟩
      · intro i hi
        dsimp only at hi ⊢
        exact (hrec i (by omega)).1
      · intro i hi
        dsimp only at hi ⊢
        simp only [setIdx]
        rw [if_neg (by omega)]
        exact (hrec i (by omega)).2
      · dsimp only
        simp [setIdx]
        try omega
    · -- the gap continues
      rw [if_neg h3]
      refine ⟨rfl, rfl, fun hn => hn, fun hc => ?_⟩
      obtain ⟨hrec, hpl, hgs, hg⟩ := hc
      have heop : eop = false := by
        rcases eop with _ | _
        · rfl
        · exact absurd (Or.inl rfl) h3
      have hps := hg hst heop
      unfold StateOkC5 RecordOk
      dsimp only
      refine ⟨hrec, by omega, fun h => ?_, fun _ _ => hps⟩
      rw [hst] at h
      simp at h

theorem pulse_detect_step_spec (s : PulseDetect) (p f : PulseData) (e fmv : Int)
    (len sr off : Nat) (fp : Bool) (eop : Bool) :
    match pulse_detect_step s p f e fmv len sr off fp eop with
    | .next s' p' f' eop' =>
        s'.data_counter = s.data_counter
        ∧ (eop = true → eop' = true)
        ∧ (NumOk p f → NumOk p' f')
        ∧ (StateOkC5 s p eop → StateOkC5 s' p' eop')
    | .ret c s' p' f' =>
        s'.data_counter = s.data_counter
        ∧ s'.ook_state = .idle
        ∧ (c = pulseDataOok ∨ c = pulseDataFsk)
        ∧ (NumOk p f → p'.num_pulses ≤ pdMaxPulses ∧ f'.num_pulses ≤ pdMaxPulses)
        ∧ (StateOkC5 s p eop → c = pulseDataFsk ∨ RetOkC5 p') := by
  obtain ⟨c1, c2, c3, c4, st0, pl, mp, dc, lic, ole, ohe, fsk, mf0, pf0, pff0⟩ := s
  unfold pulse_detect_step
  obtain ⟨m, pf1, pff, hps⟩ := prepare_s_eq
    (⟨c1, c2, c3, c4, st0, pl, mp, dc, lic, ole, ohe, fsk, mf0, pf0, pff0⟩ : PulseDetect) e fmv
  dsimp only
  rw [hps]
  dsimp only
  cases st0 with
  | idle =>
    dsimp only
    have h := ook_idle_spec
      (⟨c1, c2, c3, c4, .idle, pl, mp, dc, lic, ole, ohe, fsk, m, pf1, pff⟩ : PulseDetect)
      p f (pulse_detect_prepare (⟨c1, c2, c3, c4, .idle, pl, mp, dc, lic, ole, ohe, fsk, mf0, pf0, pff0⟩ : PulseDetect) e fmv).am_n (pulse_detect_prepare (⟨c1, c2, c3, c4, .idle, pl, mp, dc, lic, ole, ohe, fsk, mf0, pf0, pff0⟩ : PulseDetect) e fmv).thr_hi len sr off eop rfl
    revert h
    cases ook_idle (⟨c1, c2, c3, c4, .idle, pl, mp, dc, lic, ole, ohe, fsk, m, pf1, pff⟩ : PulseDetect)
      p f (pulse_detect_prepare (⟨c1, c2, c3, c4, .idle, pl, mp, dc, lic, ole, ohe, fsk, mf0, pf0, pff0⟩ : PulseDetect) e fmv).am_n (pulse_detect_prepare (⟨c1, c2, c3, c4, .idle, pl, mp, dc, lic, ole, ohe, fsk, mf0, pf0, pff0⟩ : PulseDetect) e fmv).thr_hi len sr off eop with
    | next s' p' f' eop' => exact fun h => ⟨h.1, fun he => h.2.1 ▸ he, h.2.2.1, h.2.2.2⟩
    | ret c s' p' f' => exact fun h => h.elim
  | pulse =>
    dsimp only
    have h := ook_pulse_spec
      (⟨c1, c2, c3, c4, .pulse, pl, mp, dc, lic, ole, ohe, fsk, m, pf1, pff⟩ : PulseDetect)
      p f (pulse_detect_prepare (⟨c1, c2, c3, c4, .pulse, pl, mp, dc, lic, ole, ohe, fsk, mf0, pf0, pff0⟩ : PulseDetect) e fmv).am_n fmv (pulse_detect_prepare (⟨c1, c2, c3, c4, .pulse, pl, mp, dc, lic, ole, ohe, fsk, mf0, pf0, pff0⟩ : PulseDetect) e fmv).thr_lo fp eop rfl
    revert h
    cases ook_pulse (⟨c1, c2, c3, c4, .pulse, pl, mp, dc, lic, ole, ohe, fsk, m, pf1, pff⟩ : PulseDetect)
      p f (pulse_detect_prepare (⟨c1, c2, c3, c4, .pulse, pl, mp, dc, lic, ole, ohe, fsk, mf0, pf0, pff0⟩ : PulseDetect) e fmv).am_n fmv (pulse_detect_prepare (⟨c1, c2, c3, c4, .pulse, pl, mp, dc, lic, ole, ohe, fsk, mf0, pf0, pff0⟩ : PulseDetect) e fmv).thr_lo fp eop with
    | next s' p' f' eop' => exact fun h => h
    | ret c s' p' f' => exact fun h => h.elim
  | gap_start =>
    dsimp only
    have h := ook_gap_start_spec
      (⟨c1, c2, c3, c4, .gap_start, pl, mp, dc, lic, ole, ohe, fsk, m, pf1, pff⟩ : PulseDetect)
      p f (pulse_detect_prepare (⟨c1, c2, c3, c4, .gap_start, pl, mp, dc, lic, ole, ohe, fsk, mf0, pf0, pff0⟩ : PulseDetect) e fmv).am_n fmv (pulse_detect_prepare (⟨c1, c2, c3, c4, .gap_start, pl, mp, dc, lic, ole, ohe, fsk, mf0, pf0, pff0⟩ : PulseDetect) e fmv).thr_hi len fp eop rfl
    revert h
    cases ook_gap_start (⟨c1, c2, c3, c4, .gap_start, pl, mp, dc, lic, ole, ohe, fsk, m, pf1, pff⟩ : PulseDetect)
      p f (pulse_detect_prepare (⟨c1, c2, c3, c4, .gap_start, pl, mp, dc, lic, ole, ohe, fsk, mf0, pf0, pff0⟩ : PulseDetect) e fmv).am_n fmv (pulse_detect_prepare (⟨c1, c2, c3, c4, .gap_start, pl, mp, dc, lic, ole, ohe, fsk, mf0, pf0, pff0⟩ : PulseDetect) e fmv).thr_hi len fp eop with
    | next s' p' f' eop' => exact fun h => ⟨h.1, fun he => h.2.1 ▸ he, h.2.2.1, h.2.2.2⟩
    | ret c s' p' f' => exact fun h => h
  | gap =>
    dsimp only
    have h := ook_gap_spec
      (⟨c1, c2, c3, c4, .gap, pl, mp, dc, lic, ole, ohe, fsk, m, pf1, pff⟩ : PulseDetect)
      p f (pulse_detect_prepare (⟨c1, c2, c3, c4, .gap, pl, mp, dc, lic, ole, ohe, fsk, mf0, pf0, pff0⟩ : PulseDetect) e fmv).am_n (pulse_detect_prepare (⟨c1, c2, c3, c4, .gap, pl, mp, dc, lic, ole, ohe, fsk, mf0, pf0, pff0⟩ : PulseDetect) e fmv).thr_hi len sr eop rfl
    revert h
    cases ook_gap (⟨c1, c2, c3, c4, .gap, pl, mp, dc, lic, ole, ohe, fsk, m, pf1, pff⟩ : PulseDetect)
      p f (pulse_detect_prepare (⟨c1, c2, c3, c4, .gap, pl, mp, dc, lic, ole, ohe, fsk, mf0, pf0, pff0⟩ : PulseDetect) e fmv).am_n (pulse_detect_prepare (⟨c1, c2, c3, c4, .gap, pl, mp, dc, lic, ole, ohe, fsk, mf0, pf0, pff0⟩ : PulseDetect) e fmv).thr_hi len sr eop with
    | next s' p' f' eop' => exact fun h => ⟨h.1, fun he => h.2.1 ▸ he, h.2.2.1, h.2.2.2⟩
    | ret c s' p' f' => exact fun h => h

theorem pulse_detect_chunk_spec (env fm : List Int) (len sr off : Nat) (fp : Bool) :
    ∀ (idxs : List Nat) (s : PulseDetect) (p f : PulseData) (eop : Bool) (tr : List Nat),
      match pulse_detect_chunk env fm len sr off fp idxs s p f eop tr with
      | .more s' p' f' eop' tr' =>
          tr' = tr ++ idxs
          ∧ (eop = true → eop' = true)
          ∧ (NumOk p f → NumOk p' f')
          ∧ (StateOkC5 s p eop → StateOkC5 s' p' eop')
      | .ret c s' p' f' tr' =>
          (∃ n, n < idxs.length ∧ tr' = tr ++ idxs.take (n + 1)
            ∧ s'.data_counter = idxs.getD n 0)
          ∧ s'.ook_state = .idle
          ∧ (c = pulseDataOok ∨ c = pulseDataFsk)
          ∧ (NumOk p f → p'.num_pulses ≤ pdMaxPulses ∧ f'.num_pulses ≤ pdMaxPulses)
          ∧ (StateOkC5 s p eop → c = pulseDataFsk ∨ RetOkC5 p') := by
  intro idxs
  induction idxs with
  | nil =>
    intro s p f eop tr
    unfold pulse_detect_chunk
    exact ⟨by simp, fun he => he, fun hn => hn, fun hc => hc⟩
  | cons d rest ih =>
    intro s p f eop tr
    unfold pulse_detect_chunk
    have hstep := pulse_detect_step_spec { s with data_counter := d } p f (env.getD d 0)
      (fm.getD d 0) len sr off fp eop
    revert hstep
    cases pulse_detect_step { s with data_counter := d } p f (env.getD d 0) (fm.getD d 0)
        len sr off fp eop with
    | next s1 p1 f1 eop1 =>
      intro hstep
      dsimp only
      dsimp only at hstep
      obtain ⟨hdc, hmono, hnum, hc5⟩ := hstep
      have hrest := ih s1 p1 f1 eop1 (tr ++ [d])
      revert hrest
      cases pulse_detect_chunk env fm len sr off fp rest s1 p1 f1 eop1 (tr ++ [d]) with
      | more s' p' f' eop' tr' =>
        intro hrest
        obtain ⟨htr, hm2, hn2, hc2⟩ := hrest
        exact ⟨by simp [htr], fun he => hm2 (hmono he), fun hn => hn2 (hnum hn),
          fun hc => hc2 (hc5 hc)⟩
      | ret c s' p' f' tr' =>
        intro hrest
        obtain ⟨⟨n, hn, htr, hdc'⟩, hidle, hcode, hnum2, hc52⟩ := hrest
        refine ⟨⟨n + 1, by simp; omega, by simp [htr], by simpa using hdc'⟩, hidle, hcode,
          fun h => hnum2 (hnum h), fun h => hc52 (hc5 h)⟩
    | ret c s1 p1 f1 =>
      intro hstep
      dsimp only
      dsimp only at hstep
      obtain ⟨hdc, hidle, hcode, hnum, hc5⟩ := hstep
      refine ⟨⟨0, by simp, by simp, by simpa using hdc⟩, hidle, hcode, hnum, hc5⟩

theorem range'_take (n : Nat) : ∀ (k a : Nat), n ≤ k →
    (List.range' a k).take n = List.range' a n := by
  induction n with
  | zero => intro k a _; simp
  | succ n ih =>
    intro k a h
    obtain ⟨k', rfl⟩ : ∃ k', k = k' + 1 := ⟨k - 1, by omega⟩
    rw [List.range'_succ, List.take_succ_cons, ih k' (a + 1) (by omega)]
    rfl

theorem range'_getD (a k n : Nat) (h : n < k) : (List.range' a k).getD n 0 = a + n := by
  rw [List.getD_eq_getElem _ _ (by simpa using h)]
  simp [List.getElem_range']

/-- Facts about one call of `pulse_detect_package`, derived from the loop
invariants: the possible return codes, the consumed index ranges, the
record-size bounds and the stored-width guarantees. -/
theorem pulse_detect_package_spec (s : PulseDetect) (p f : PulseData) (env fm : List Int)
    (len sr off : Nat) (fp : Bool) :
    ((pulse_detect_package s p f env fm len sr off fp).code = 0
      ∨ (pulse_detect_package s p f env fm len sr off fp).code = pulseDataOok
      ∨ (pulse_detect_package s p f env fm len sr off fp).code = pulseDataFsk)
    ∧ ((pulse_detect_package s p f env fm len sr off fp).code = 0 →
        (pulse_detect_package s p f env fm len sr off fp).s.data_counter = 0
        ∧ (pulse_detect_package s p f env fm len sr off fp).trace
            = List.range' s.data_counter (len - s.data_counter))
    ∧ ((pulse_detect_package s p f env fm len sr off fp).code ≠ 0 →
        (pulse_detect_package s p f env fm len sr off fp).s.ook_state = .idle
        ∧ ∃ n, n < len - s.data_counter
          ∧ (pulse_detect_package s p f env fm len sr off fp).trace
              = List.range' s.data_counter (n + 1)
          ∧ (pulse_detect_package s p f env fm len sr off fp).s.data_counter
              = s.data_counter + n)
    ∧ (NumOk p f →
        (pulse_detect_package s p f env fm len sr off fp).pulses.num_pulses ≤ pdMaxPulses
        ∧ (pulse_detect_package s p f env fm len sr off fp).fsk_pulses.num_pulses
            ≤ pdMaxPulses)
    ∧ (StateOkC5 s p false →
        (pulse_detect_package s p f env fm len sr off fp).code = pulseDataOok →
        RetOkC5 (pulse_detect_package s p f env fm len sr off fp).pulses) := by
  unfold pulse_detect_package
  dsimp only
  split_ifs with hdc0
  · have h := pulse_detect_chunk_spec env fm len sr off fp
      (List.range' s.data_counter (len - s.data_counter))
      { s with ook_high_estimate := max s.ook_high_estimate s.ook_min_high_level }
      { p with start_ago := p.start_ago + len } { f with start_ago := f.start_ago + len }
      false []
    revert h
    cases pulse_detect_chunk env fm len sr off fp
        (List.range' s.data_counter (len - s.data_counter))
        { s with ook_high_estimate := max s.ook_high_estimate s.ook_min_high_level }
        { p with start_ago := p.start_ago + len } { f with start_ago := f.start_ago + len }
        false [] with
    | more s' p' f' eop' tr' =>
      intro h
      dsimp only
      obtain ⟨htr, _, hnum, hc5⟩ := h
      refine ⟨Or.inl rfl, fun _ => ⟨rfl, by simpa using htr⟩, fun hne => absurd rfl hne,
        fun hn => ⟨Nat.le_of_lt (hnum hn).1, (hnum hn).2⟩,
        fun hc h1 => by simp [pulseDataOok] at h1⟩
    | ret c s' p' f' tr' =>
      intro h
      dsimp only
      obtain ⟨⟨n, hn, htr, hdc⟩, hidle, hcode, hnum, hc5⟩ := h
      have hlen : n < len - s.data_counter := by simpa using hn
      refine ⟨Or.inr hcode, fun h0 => ?_, fun _ => ⟨hidle, n, hlen, ?_, ?_⟩,
        fun hx => hnum hx, fun hc h1 => ?_⟩
      · rcases hcode with rfl | rfl
        · simp [pulseDataOok] at h0
        · simp [pulseDataFsk] at h0
      · rw [htr, range'_take (n + 1) _ _ (by omega)]
        simp
      · rw [hdc, range'_getD _ _ _ hlen]
      · rcases hc5 hc with hfsk | hok
        · rw [h1] at hfsk
          simp [pulseDataOok, pulseDataFsk] at hfsk
        · exact hok
  · have h := pulse_detect_chunk_spec env fm len sr off fp
      (List.range' s.data_counter (len - s.data_counter))
      { s with ook_high_estimate := max s.ook_high_estimate s.ook_min_high_level } p f
      false []
    revert h
    cases pulse_detect_chunk env fm len sr off fp
        (List.range' s.data_counter (len - s.data_counter))
        { s with ook_high_estimate := max s.ook_high_estimate s.ook_min_high_level } p f
        false [] with
    | more s' p' f' eop' tr' =>
      intro h
      dsimp only
      obtain ⟨htr, _, hnum, hc5⟩ := h
      refine ⟨Or.inl rfl, fun _ => ⟨rfl, by simpa using htr⟩, fun hne => absurd rfl hne,
        fun hn => ⟨Nat.le_of_lt (hnum hn).1, (hnum hn).2⟩,
        fun hc h1 => by simp [pulseDataOok] at h1⟩
    | ret c s' p' f' tr' =>
      intro h
      dsimp only
      obtain ⟨⟨n, hn, htr, hdc⟩, hidle, hcode, hnum, hc5⟩ := h
      have hlen : n < len - s.data_counter := by simpa using hn
      refine ⟨Or.inr hcode, fun h0 => ?_, fun _ => ⟨hidle, n, hlen, ?_, ?_⟩,
        fun hx => hnum hx, fun hc h1 => ?_⟩
      · rcases hcode with rfl | rfl
        · simp [pulseDataOok] at h0
        · simp [pulseDataFsk] at h0
      · rw [htr, range'_take (n + 1) _ _ (by omega)]
        simp
      · rw [hdc, range'_getD _ _ _ hlen]
      · rcases hc5 hc with hfsk | hok
        · rw [h1] at hfsk
          simp [pulseDataOok, pulseDataFsk] at hfsk
        · exact hok

/-!
## Claims about the OOK state machine
-/

/-- C1: on every return of `pulse_detect_package` (in particular every
non-zero one) both records satisfy `num_pulses ≤ PD_MAX_PULSES`, provided
the records respected their capacity when the call began; and no iteration
of the loop ever continues with a full record: reaching `PD_MAX_PULSES`
inside the GAP state finalises and returns `PULSE_DATA_OOK` at that very
sample. -/
theorem c1_num_pulses_bounded :
    (∀ (s : PulseDetect) (p f : PulseData) (env fm : List Int) (len sr off : Nat) (fp : Bool),
      p.num_pulses < pdMaxPulses → f.num_pulses ≤ pdMaxPulses →
      (pulse_detect_package s p f env fm len sr off fp).pulses.num_pulses ≤ pdMaxPulses
        ∧ (pulse_detect_package s p f env fm len sr off fp).fsk_pulses.num_pulses
            ≤ pdMaxPulses)
    ∧ (∀ (s : PulseDetect) (p f : PulseData) (e fmv : Int) (len sr off : Nat) (fp eop : Bool)
        (s' : PulseDetect) (p' f' : PulseData) (eop' : Bool),
      p.num_pulses < pdMaxPulses → f.num_pulses ≤ pdMaxPulses →
      pulse_detect_step s p f e fmv len sr off fp eop = StepOut.next s' p' f' eop' →
      p'.num_pulses < pdMaxPulses) := by
  constructor
  · intro s p f env fm len sr off fp hp hf
    exact (pulse_detect_package_spec s p f env fm len sr off fp).2.2.2.1 ⟨hp, hf⟩
  · intro s p f e fmv len sr off fp eop s' p' f' eop' hp hf hstep
    have h := pulse_detect_step_spec s p f e fmv len sr off fp eop
    rw [hstep] at h
    exact (h.2.2.1 ⟨hp, hf⟩).1

/-- C1, witness: a call that returns `PULSE_DATA_OOK` on a concrete
mid-package state. -/
theorem c1_witness :
    (exRecord.num_pulses < pdMaxPulses ∧ pulse_data_clear.num_pulses ≤ pdMaxPulses
      ∧ (pulse_detect_package exState exRecord pulse_data_clear [0, 0] [0, 0] 2 1000 0
          false).code = pulseDataOok)
    ∧ (pulse_detect_package exState exRecord pulse_data_clear [0, 0] [0, 0] 2 1000 0
        false).pulses.num_pulses ≤ pdMaxPulses
    ∧ (pulse_detect_package exState exRecord pulse_data_clear [0, 0] [0, 0] 2 1000 0
        false).fsk_pulses.num_pulses ≤ pdMaxPulses :=
  ⟨⟨by decide, by decide, by decide⟩,
   c1_num_pulses_bounded.1 exState exRecord pulse_data_clear [0, 0] [0, 0] 2 1000 0 false
     (by decide) (by decide)⟩

/-- C9: the entry point is total and returns only 0, `PULSE_DATA_OOK` or
`PULSE_DATA_FSK`; a zero return happens exactly on buffer exhaustion (the
whole remainder of the buffer is consumed and `data_counter` resets), while
a non-zero return leaves the loop early with `data_counter` at the returning
sample. -/
theorem c9_return_codes (s : PulseDetect) (p f : PulseData) (env fm : List Int)
    (len sr off : Nat) (fp : Bool) :
    ((pulse_detect_package s p f env fm len sr off fp).code = 0
      ∨ (pulse_detect_package s p f env fm len sr off fp).code = pulseDataOok
      ∨ (pulse_detect_package s p f env fm len sr off fp).code = pulseDataFsk)
    ∧ ((pulse_detect_package s p f env fm len sr off fp).code = 0 →
        (pulse_detect_package s p f env fm len sr off fp).s.data_counter = 0
        ∧ (pulse_detect_package s p f env fm len sr off fp).trace
            = List.range' s.data_counter (len - s.data_counter))
    ∧ ((pulse_detect_package s p f env fm len sr off fp).code ≠ 0 →
        ∃ n, n < len - s.data_counter
          ∧ (pulse_detect_package s p f env fm len sr off fp).trace
              = List.range' s.data_counter (n + 1)
          ∧ (pulse_detect_package s p f env fm len sr off fp).s.data_counter
              = s.data_counter + n) := by
  obtain ⟨h1, h2, h3, _, _⟩ := pulse_detect_package_spec s p f env fm len sr off fp
  exact ⟨h1, h2, fun hne => (h3 hne).2⟩

/-- C9, witness: a package return and an exhaustion return on concrete
buffers. -/
theorem c9_witness :
    ((pulse_detect_package exState exRecord pulse_data_clear [0, 0] [0, 0] 2 1000 0
        false).code ≠ 0
      ∧ ∃ n, n < 2
        ∧ (pulse_detect_package exState exRecord pulse_data_clear [0, 0] [0, 0] 2 1000 0
            false).trace = List.range' 0 (n + 1)
        ∧ (pulse_detect_package exState exRecord pulse_data_clear [0, 0] [0, 0] 2 1000 0
            false).s.data_counter = 0 + n) :=
  ⟨by decide,
   (c9_return_codes exState exRecord pulse_data_clear [0, 0] [0, 0] 2 1000 0 false).2.2
     (by decide)⟩

/-- C3, counterexample: a call returning a package leaves `data_counter` at
the returning sample, so the resuming call processes that sample again:
index 1 appears in the consumption trace of both calls. -/
theorem c3_reprocess_counterexample :
    (pulse_detect_package exState exRecord pulse_data_clear [0, 0] [0, 0] 2 1000 0
        false).code ≠ 0
    ∧ (pulse_detect_package exState exRecord pulse_data_clear [0, 0] [0, 0] 2 1000 0
        false).trace = [0, 1]
    ∧ (pulse_detect_package
        (pulse_detect_package exState exRecord pulse_data_clear [0, 0] [0, 0] 2 1000 0
          false).s
        (pulse_detect_package exState exRecord pulse_data_clear [0, 0] [0, 0] 2 1000 0
          false).pulses
        (pulse_detect_package exState exRecord pulse_data_clear [0, 0] [0, 0] 2 1000 0
          false).fsk_pulses
        [0, 0] [0, 0] 2 1000 0 false).trace = [1] := by
  decide

/-- C3, amended: within one call the consumed indices form the contiguous
strictly increasing range starting at the entry `data_counter`, each index
consumed once; on a zero return the whole remainder was consumed and
`data_counter` resets; on a non-zero return `data_counter` stays at the last
consumed index, which the resuming call therefore processes again. -/
theorem c3_consumption_contiguous (s : PulseDetect) (p f : PulseData) (env fm : List Int)
    (len sr off : Nat) (fp : Bool) :
    (∃ k, k ≤ len - s.data_counter
      ∧ (pulse_detect_package s p f env fm len sr off fp).trace
          = List.range' s.data_counter k)
    ∧ (pulse_detect_package s p f env fm len sr off fp).trace.Pairwise (· < ·)
    ∧ ((pulse_detect_package s p f env fm len sr off fp).code = 0 →
        (pulse_detect_package s p f env fm len sr off fp).s.data_counter = 0
        ∧ (pulse_detect_package s p f env fm len sr off fp).trace
            = List.range' s.data_counter (len - s.data_counter))
    ∧ ((pulse_detect_package s p f env fm len sr off fp).code ≠ 0 →
        (pulse_detect_package s p f env fm len sr off fp).trace ≠ []
        ∧ (pulse_detect_package s p f env fm len sr off fp).s.data_counter
            = s.data_counter
              + ((pulse_detect_package s p f env fm len sr off fp).trace.length - 1)) := by
  obtain ⟨h1, h2, h3, _, _⟩ := pulse_detect_package_spec s p f env fm len sr off fp
  have hrange : ∃ k, k ≤ len - s.data_counter
      ∧ (pulse_detect_package s p f env fm len sr off fp).trace
          = List.range' s.data_counter k := by
    rcases h1 with h0 | hc
    · exact ⟨len - s.data_counter, le_refl _, (h2 h0).2⟩
    · have hne : (pulse_detect_package s p f env fm len sr off fp).code ≠ 0 := by
        rcases hc with h | h <;> rw [h]
        · simp [pulseDataOok]
        · simp [pulseDataFsk]
      obtain ⟨n, hn, htr, _⟩ := (h3 hne).2
      exact ⟨n + 1, by omega, htr⟩
  refine ⟨hrange, ?_, h2, fun hne => ?_⟩
  · obtain ⟨k, _, htr⟩ := hrange
    rw [htr]
    exact List.pairwise_lt_range' _ _
  · obtain ⟨n, hn, htr, hdc⟩ := (h3 hne).2
    constructor
    · rw [htr]
      simp [List.range'_succ]
    · rw [htr, hdc]
      simp

/-- C3, witness. -/
theorem c3_witness :
    ((pulse_detect_package exState exRecord pulse_data_clear [0, 0] [0, 0] 2 1000 0
        false).code ≠ 0)
    ∧ ((pulse_detect_package exState exRecord pulse_data_clear [0, 0] [0, 0] 2 1000 0
        false).trace ≠ []
      ∧ (pulse_detect_package exState exRecord pulse_data_clear [0, 0] [0, 0] 2 1000 0
          false).s.data_counter
          = 0 + ((pulse_detect_package exState exRecord pulse_data_clear [0, 0] [0, 0] 2
              1000 0 false).trace.length - 1)) :=
  ⟨by decide,
   (c3_consumption_contiguous exState exRecord pulse_data_clear [0, 0] [0, 0] 2 1000 0
     false).2.2.2 (by decide)⟩

/-- C5, counterexample: a spurious short pulse (with at least two completed
pulses) forces end-of-package from the following gap, and when a new pulse
edge arrives at the very sample on which the termination condition fires,
the returned record carries a final gap width of 0 and trailing pulse
entries that were never written (they hold the cleared value 0, below
`PD_MIN_PULSE_SAMPLES`). -/
theorem c5_width_counterexample :
    (pulse_detect_package exStateFlip exRecord pulse_data_clear [0, 8000] [0, 0] 2 1000 0
        false).code = pulseDataOok
    ∧ (pulse_detect_package exStateFlip exRecord pulse_data_clear [0, 8000] [0, 0] 2 1000 0
        false).pulses.num_pulses = 4
    ∧ ¬ pdMinPulseSamples ≤
        (pulse_detect_package exStateFlip exRecord pulse_data_clear [0, 8000] [0, 0] 2 1000
          0 false).pulses.pulse 2
    ∧ ¬ 1 ≤
        (pulse_detect_package exStateFlip exRecord pulse_data_clear [0, 8000] [0, 0] 2 1000
          0 false).pulses.gap 3 := by
  decide

/-- C5, amended: on a `PULSE_DATA_OOK` return from a call whose initial
state satisfies the width invariant (in particular the call does not begin
inside a gap that followed a spurious pulse of an earlier call), the record
holds at least one entry, every pulse width except possibly the last two is
at least `PD_MIN_PULSE_SAMPLES`, every gap width except possibly the last is
strictly positive, and the final gap width is nonnegative; the exceptions
arise exactly when `eop_on_spurious` terminates the package, where the
trailing pulse entries are never written and a new pulse edge coinciding
with the termination stores a zero-width gap. -/
theorem c5_returned_widths (s : PulseDetect) (p f : PulseData) (env fm : List Int)
    (len sr off : Nat) (fp : Bool)
    (hok : StateOkC5 s p false)
    (hcode : (pulse_detect_package s p f env fm len sr off fp).code = pulseDataOok) :
    RetOkC5 (pulse_detect_package s p f env fm len sr off fp).pulses :=
  (pulse_detect_package_spec s p f env fm len sr off fp).2.2.2.2 hok hcode

/-- C5, witness: the amended theorem applied to the run of the
counterexample, whose initial state satisfies the invariant. -/
theorem c5_witness :
    StateOkC5 exStateFlip exRecord false
    ∧ RetOkC5 (pulse_detect_package exStateFlip exRecord pulse_data_clear [0, 8000] [0, 0]
        2 1000 0 false).pulses := by
  have hok : StateOkC5 exStateFlip exRecord false := by
    refine ⟨fun i hi => ?_, by decide, fun h => absurd h (by decide),
      fun h => absurd h (by decide)⟩
    have hi2 : i < 2 := hi
    have : i = 0 ∨ i = 1 := by omega
    rcases this with rfl | rfl
    · exact ⟨by decide, by decide⟩
    · exact ⟨by decide, by decide⟩
  exact ⟨hok, c5_returned_widths exStateFlip exRecord pulse_data_clear [0, 8000] [0, 0] 2
    1000 0 false hok (by decide)⟩

/-- C4, counterexample: the `eop_on_spurious` flag is a local of
`pulse_detect_package`, reset on every call.  A spurious pulse inside the
first sub-buffer moves the detector to GAP with the flag set, but the buffer
ends; the resuming call starts with the flag clear and consumes its whole
buffer inside the gap without returning any package, contradicting the
claimed stickiness across the buffer boundary. -/
theorem c4_cross_buffer_counterexample :
    (pulse_detect_package exState exRecord pulse_data_clear [0] [0] 1 1000 0
        false).eop_final = true
    ∧ (pulse_detect_package exState exRecord pulse_data_clear [0] [0] 1 1000 0
        false).code = 0
    ∧ (pulse_detect_package exState exRecord pulse_data_clear [0] [0] 1 1000 0
        false).s.ook_state = .gap
    ∧ (pulse_detect_package
        (pulse_detect_package exState exRecord pulse_data_clear [0] [0] 1 1000 0 false).s
        (pulse_detect_package exState exRecord pulse_data_clear [0] [0] 1 1000 0
          false).pulses
        (pulse_detect_package exState exRecord pulse_data_clear [0] [0] 1 1000 0
          false).fsk_pulses
        [0] [0] 1 1000 0 false).code = 0
    ∧ (pulse_detect_package
        (pulse_detect_package exState exRecord pulse_data_clear [0] [0] 1 1000 0 false).s
        (pulse_detect_package exState exRecord pulse_data_clear [0] [0] 1 1000 0
          false).pulses
        (pulse_detect_package exState exRecord pulse_data_clear [0] [0] 1 1000 0
          false).fsk_pulses
        [0] [0] 1 1000 0 false).s.ook_state = .gap := by
  decide

/-- C4, amended: in the PULSE state, when the sample drops below the low
threshold with the incremented pulse length below `PD_MIN_PULSE_SAMPLES`:
with at most one completed pulse the detector returns to IDLE emitting
nothing (the pulse record is untouched), otherwise it sets the
`eop_on_spurious` flag and moves to GAP.  The flag is monotone for the rest
of the same call, and any GAP-state sample processed with the flag set
terminates the package with `PULSE_DATA_OOK`; the flag does not survive a
buffer boundary, because it is a call-local reset at every invocation. -/
theorem c4_spurious_pulse_behavior :
    (∀ (s : PulseDetect) (p f : PulseData) (am fm thr : Int) (fp eop : Bool),
      am < thr → s.pulse_length + 1 < pdMinPulseSamples → p.num_pulses ≤ 1 →
      ∃ s' f', ook_pulse s p f am fm thr fp eop = .next s' p f' eop
        ∧ s'.ook_state = .idle)
    ∧ (∀ (s : PulseDetect) (p f : PulseData) (am fm thr : Int) (fp eop : Bool),
      am < thr → s.pulse_length + 1 < pdMinPulseSamples → 2 ≤ p.num_pulses →
      ∃ s' f', ook_pulse s p f am fm thr fp eop = .next s' p f' true
        ∧ s'.ook_state = .gap)
    ∧ (∀ (s : PulseDetect) (p f : PulseData) (e fmv : Int) (len sr off : Nat) (fp : Bool)
        (s' : PulseDetect) (p' f' : PulseData) (eop' : Bool),
      pulse_detect_step s p f e fmv len sr off fp true = .next s' p' f' eop' →
      eop' = true)
    ∧ (∀ (s : PulseDetect) (p f : PulseData) (am thr : Int) (len sr : Nat),
      ∃ s' p', ook_gap s p f am thr len sr true = .ret pulseDataOok s' p' f) := by
  refine ⟨?_, ?_, ?_, ?_⟩
  · intro s p f am fm thr fp eop h1 h2 h3
    unfold ook_pulse
    dsimp only
    rw [if_pos h1, if_pos h2, if_pos h3]
    obtain ⟨k, hk⟩ := fsk_feed_s_eq _ f fm fp _
    rw [hk]
    exact ⟨_, _, rfl, rfl⟩
  · intro s p f am fm thr fp eop h1 h2 h3
    unfold ook_pulse
    dsimp only
    rw [if_pos h1, if_pos h2, if_neg (by omega)]
    obtain ⟨k, hk⟩ := fsk_feed_s_eq _ f fm fp _
    rw [hk]
    exact ⟨_, _, rfl, rfl⟩
  · intro s p f e fmv len sr off fp s' p' f' eop' hstep
    have h := pulse_detect_step_spec s p f e fmv len sr off fp true
    rw [hstep] at h
    exact h.2.1 rfl
  · intro s p f am thr len sr
    unfold ook_gap
    dsimp only
    by_cases h1 : am > thr
    · rw [if_pos h1]
      by_cases h2 : p.num_pulses + 1 ≥ pdMaxPulses
      · rw [if_pos h2]
        exact ⟨_, _, rfl⟩
      · rw [if_neg h2, if_pos (Or.inl rfl)]
        exact ⟨_, _, rfl⟩
    · rw [if_neg h1, if_pos (Or.inl rfl)]
      exact ⟨_, _, rfl⟩

/-- C4, witness: the spurious branch taken on a concrete state with two
completed pulses, and the flag-forced termination on a concrete GAP
state. -/
theorem c4_witness :
    ((0 : Int) < 3750 ∧ exState.pulse_length + 1 < pdMinPulseSamples
      ∧ 2 ≤ exRecord.num_pulses)
    ∧ (∃ s' f', ook_pulse exState exRecord pulse_data_clear 0 0 3750 false false
        = .next s' exRecord f' true ∧ s'.ook_state = .gap)
    ∧ (∃ s' p', ook_gap exState exRecord pulse_data_clear 0 6250 2 1000 true
        = .ret pulseDataOok s' p' pulse_data_clear) :=
  ⟨⟨by decide, by decide, by decide⟩,
   c4_spurious_pulse_behavior.2.1 exState exRecord pulse_data_clear 0 0 3750 false false
     (by decide) (by decide) (by decide),
   c4_spurious_pulse_behavior.2.2.2 exState exRecord pulse_data_clear 0 6250 2 1000⟩

/-!
## Buffer-split bisimulation

Two detector states are similar (`SimS`) when they agree on every field
except `data_counter` (a buffer-relative position) and `ook_high_estimate`
(re-raised at each call entry and control-relevant only in the classical
threshold mode); two records are similar (`SimP`) when they agree on their
contents — `num_pulses` and the `pulse`/`gap` arrays — while their side
fields are unconstrained.
-/

def SimS (s1 s2 : PulseDetect) : Prop :=
  s2.ook_fixed_high_level = s1.ook_fixed_high_level
  ∧ s2.ook_min_high_level = s1.ook_min_high_level
  ∧ s2.ook_high_low_ratio = s1.ook_high_low_ratio
  ∧ s2.use_peak_follower = s1.use_peak_follower
  ∧ s2.ook_state = s1.ook_state
  ∧ s2.pulse_length = s1.pulse_length
  ∧ s2.max_pulse = s1.max_pulse
  ∧ s2.lead_in_counter = s1.lead_in_counter
  ∧ s2.ook_low_estimate = s1.ook_low_estimate
  ∧ s2.pulse_detect_fsk = s1.pulse_detect_fsk
  ∧ s2.median_filter = s1.median_filter
  ∧ s2.peak_follower = s1.peak_follower
  ∧ s2.peak_follower_fm = s1.peak_follower_fm

def SimP (p1 p2 : PulseData) : Prop :=
  p2.num_pulses = p1.num_pulses ∧ p2.pulse = p1.pulse ∧ p2.gap = p1.gap

theorem simS_refl (s : PulseDetect) : SimS s s :=
  ⟨rfl, rfl, rfl, rfl, rfl, rfl, rfl, rfl, rfl, rfl, rfl, rfl, rfl⟩

theorem simP_refl (p : PulseData) : SimP p p := ⟨rfl, rfl, rfl⟩

theorem simS_trans {s1 s2 s3 : PulseDetect} (h1 : SimS s1 s2) (h2 : SimS s2 s3) :
    SimS s1 s3 := by
  obtain ⟨a1, a2, a3, a4, a5, a6, a7, a8, a9, a10, a11, a12, a13⟩ := h1
  obtain ⟨b1, b2, b3, b4, b5, b6, b7, b8, b9, b10, b11, b12, b13⟩ := h2
  exact ⟨b1.trans a1, b2.trans a2, b3.trans a3, b4.trans a4, b5.trans a5, b6.trans a6,
    b7.trans a7, b8.trans a8, b9.trans a9, b10.trans a10, b11.trans a11, b12.trans a12,
    b13.trans a13⟩

theorem simP_trans {p1 p2 p3 : PulseData} (h1 : SimP p1 p2) (h2 : SimP p2 p3) :
    SimP p1 p3 :=
  ⟨h2.1.trans h1.1, h2.2.1.trans h1.2.1, h2.2.2.trans h1.2.2⟩

theorem simP_erase {p1 p2 : PulseData} (h : SimP p1 p2) : eraseP p1 = eraseP p2 := by
  unfold eraseP
  rw [h.1, h.2.1, h.2.2]

/-- The updated sub-detector state computed by `fsk_emit_subpulse` does not
depend on the record. -/
theorem fsk_emit_fst (fsk : PulseDetectFsk) (p : PulseData) :
    (fsk_emit_subpulse fsk p).1 = { fsk with in_f2 := !fsk.in_f2, subpulse_length := 0 } := by
  unfold fsk_emit_subpulse
  split_ifs <;> rfl

/-- `fsk_emit_subpulse` writes the same contents into records that agree on
their contents. -/
theorem fsk_emit_sim (fsk : PulseDetectFsk) {p1 p2 : PulseData} (h : SimP p1 p2) :
    (fsk_emit_subpulse fsk p1).1 = (fsk_emit_subpulse fsk p2).1
    ∧ SimP (fsk_emit_subpulse fsk p1).2 (fsk_emit_subpulse fsk p2).2 := by
  obtain ⟨h1, h2, h3⟩ := h
  refine ⟨by rw [fsk_emit_fst, fsk_emit_fst], ?_⟩
  unfold fsk_emit_subpulse
  dsimp only
  rw [h1]
  split_ifs
  all_goals refine ⟨?_, ?_, ?_⟩ <;> simp [h1, h2, h3]

theorem fsk_classic_sim (fsk : PulseDetectFsk) (fm : Int) {p1 p2 : PulseData}
    (h : SimP p1 p2) :
    (pulse_detect_fsk_classic fsk fm p1).1 = (pulse_detect_fsk_classic fsk fm p2).1
    ∧ SimP (pulse_detect_fsk_classic fsk fm p1).2 (pulse_detect_fsk_classic fsk fm p2).2 := by
  unfold pulse_detect_fsk_classic
  dsimp only
  by_cases hn : |fm - fsk.fm_f2_est| < |fm - fsk.fm_f1_est|
  · rw [if_pos hn]
    split_ifs
    · exact ⟨rfl, h⟩
    · exact ⟨by rw [(fsk_emit_sim _ h).1], (fsk_emit_sim _ h).2⟩
  · rw [if_neg hn]
    split_ifs
    · exact ⟨rfl, h⟩
    · exact ⟨by rw [(fsk_emit_sim _ h).1], (fsk_emit_sim _ h).2⟩

theorem fsk_minmax_sim (fsk : PulseDetectFsk) (fm : Int) {p1 p2 : PulseData}
    (h : SimP p1 p2) :
    (pulse_detect_fsk_minmax fsk fm p1).1 = (pulse_detect_fsk_minmax fsk fm p2).1
    ∧ SimP (pulse_detect_fsk_minmax fsk fm p1).2 (pulse_detect_fsk_minmax fsk fm p2).2 := by
  unfold pulse_detect_fsk_minmax
  dsimp only
  split_ifs
  · exact ⟨rfl, h⟩
  · exact ⟨by rw [(fsk_emit_sim _ h).1], (fsk_emit_sim _ h).2⟩

/-- The detector state carried by a step outcome. -/
def outS : StepOut → PulseDetect
  | .next s _ _ _ => s
  | .ret _ s _ _ => s

/-- Outcome similarity: both sides take the same arm, with similar states,
content-equal records, and (for fall-through) equal end-of-package flags
and (for returns) equal codes. -/
def StepOutSim : StepOut → StepOut → Prop
  | .next s1 p1 f1 e1, .next s2 p2 f2 e2 => SimS s1 s2 ∧ SimP p1 p2 ∧ SimP f1 f2 ∧ e1 = e2
  | .ret c1 s1 p1 f1, .ret c2 s2 p2 f2 => c1 = c2 ∧ SimS s1 s2 ∧ SimP p1 p2 ∧ SimP f1 f2
  | _, _ => False

theorem fsk_feed_pf (s : PulseDetect) (f : PulseData) (fm : Int) (fp : Bool) (n : Nat) :
    (fsk_feed s f fm fp n).1.use_peak_follower = s.use_peak_follower := by
  unfold fsk_feed
  dsimp only
  split_ifs <;> rfl

theorem fsk_feed_sim (s1 s2 : PulseDetect) (f1 f2 : PulseData) (fm : Int) (fp : Bool) (n : Nat)
    (hs : SimS s1 s2) (hf : SimP f1 f2) :
    SimS (fsk_feed s1 f1 fm fp n).1 (fsk_feed s2 f2 fm fp n).1
    ∧ SimP (fsk_feed s1 f1 fm fp n).2 (fsk_feed s2 f2 fm fp n).2 := by
  obtain ⟨a1, a2, a3, a4, a5, a6, a7, a8, a9, a10, a11, a12, a13⟩ := hs
  obtain ⟨c1, c2, c3, c4, st, pl, mp, d1, lic, ole, ohe, fsk, mf, pf, pff⟩ := s1
  obtain ⟨b1, b2, b3, b4, b5, b6, b7, b8, b9, b10, b11, b12, b13, b14, b15⟩ := s2
  dsimp only at a1 a2 a3 a4 a5 a6 a7 a8 a9 a10 a11 a12 a13
  subst a1 a2 a3 a4 a5 a6 a7 a8 a9 a10 a11 a12 a13
  unfold fsk_feed
  dsimp only
  split_ifs with h1 h2
  · exact ⟨⟨rfl, rfl, rfl, rfl, rfl, rfl, rfl, rfl, rfl,
      (fsk_classic_sim _ fm hf).1.symm, rfl, rfl, rfl⟩, (fsk_classic_sim _ fm hf).2⟩
  · exact ⟨⟨rfl, rfl, rfl, rfl, rfl, rfl, rfl, rfl, rfl,
      (fsk_minmax_sim _ fm hf).1.symm, rfl, rfl, rfl⟩, (fsk_minmax_sim _ fm hf).2⟩
  · exact ⟨⟨rfl, rfl, rfl, rfl, rfl, rfl, rfl, rfl, rfl, rfl, rfl, rfl, rfl⟩, hf⟩

theorem ook_idle_sim (s1 s2 : PulseDetect) (p1 p2 f1 f2 : PulseData)
    (am thr : Int) (len1 len2 sr off1 off2 : Nat) (eop : Bool)
    (hs : SimS s1 s2) (hp : SimP p1 p2) (hf : SimP f1 f2) :
    StepOutSim (ook_idle s1 p1 f1 am thr len1 sr off1 eop)
      (ook_idle s2 p2 f2 am thr len2 sr off2 eop)
    ∧ (outS (ook_idle s1 p1 f1 am thr len1 sr off1 eop)).use_peak_follower
        = s1.use_peak_follower := by
  obtain ⟨a1, a2, a3, a4, a5, a6, a7, a8, a9, a10, a11, a12, a13⟩ := hs
  obtain ⟨q1, q2, q3⟩ := hp
  obtain ⟨r1, r2, r3⟩ := hf
  obtain ⟨c1, c2, c3, c4, st, pl, mp, d1, lic, ole, ohe, fsk, mf, pf, pff⟩ := s1
  obtain ⟨b1, b2, b3, b4, b5, b6, b7, b8, b9, b10, b11, b12, b13, b14, b15⟩ := s2
  obtain ⟨n1, u1, g1, w1, w2, w3, w4, w5, w6, w7, w8⟩ := p1
  obtain ⟨n2, u2, g2, v1, v2, v3, v4, v5, v6, v7, v8⟩ := p2
  obtain ⟨fn1, fu1, fg1, x1, x2, x3, x4, x5, x6, x7, x8⟩ := f1
  obtain ⟨fn2, fu2, fg2, y1, y2, y3, y4, y5, y6, y7, y8⟩ := f2
  dsimp only at a1 a2 a3 a4 a5 a6 a7 a8 a9 a10 a11 a12 a13 q1 q2 q3 r1 r2 r3
  subst a1 a2 a3 a4 a5 a6 a7 a8 a9 a10 a11 a12 a13 q1 q2 q3 r1 r2 r3
  unfold ook_idle
  dsimp only
  split_ifs <;>
    exact ⟨⟨⟨rfl, rfl, rfl, rfl, rfl, rfl, rfl, rfl, rfl, rfl, rfl, rfl, rfl⟩,
      ⟨rfl, rfl, rfl⟩, ⟨rfl, rfl, rfl⟩, rfl⟩, rfl⟩

theorem ook_pulse_sim (s1 s2 : PulseDetect) (p1 p2 f1 f2 : PulseData)
    (am fm thr : Int) (fp : Bool) (eop : Bool)
    (hs : SimS s1 s2) (hp : SimP p1 p2) (hf : SimP f1 f2) :
    StepOutSim (ook_pulse s1 p1 f1 am fm thr fp eop)
      (ook_pulse s2 p2 f2 am fm thr fp eop)
    ∧ (outS (ook_pulse s1 p1 f1 am fm thr fp eop)).use_peak_follower
        = s1.use_peak_follower := by
  obtain ⟨a1, a2, a3, a4, a5, a6, a7, a8, a9, a10, a11, a12, a13⟩ := hs
  obtain ⟨q1, q2, q3⟩ := hp
  obtain ⟨r1, r2, r3⟩ := hf
  obtain ⟨c1, c2, c3, c4, st, pl, mp, d1, lic, ole, ohe, fsk, mf, pf, pff⟩ := s1
  obtain ⟨b1, b2, b3, b4, b5, b6, b7, b8, b9, b10, b11, b12, b13, b14, b15⟩ := s2
  obtain ⟨n1, u1, g1, w1, w2, w3, w4, w5, w6, w7, w8⟩ := p1
  obtain ⟨n2, u2, g2, v1, v2, v3, v4, v5, v6, v7, v8⟩ := p2
  obtain ⟨fn1, fu1, fg1, x1, x2, x3, x4, x5, x6, x7, x8⟩ := f1
  obtain ⟨fn2, fu2, fg2, y1, y2, y3, y4, y5, y6, y7, y8⟩ := f2
  dsimp only at a1 a2 a3 a4 a5 a6 a7 a8 a9 a10 a11 a12 a13 q1 q2 q3 r1 r2 r3
  subst a1 a2 a3 a4 a5 a6 a7 a8 a9 a10 a11 a12 a13 q1 q2 q3 r1 r2 r3
  unfold ook_pulse
  dsimp only
  split_ifs <;> dsimp only <;>
    refine ⟨⟨?_, ⟨rfl, rfl, rfl⟩, ?_, rfl⟩, ?_⟩ <;>
      first
      | exact fsk_feed_pf _ _ _ _ _
      | (refine (fsk_feed_sim _ _ _ _ _ _ _ ?_ ?_).1 <;>
          first
          | exact ⟨rfl, rfl, rfl, rfl, rfl, rfl, rfl, rfl, rfl, rfl, rfl, rfl, rfl⟩
          | exact ⟨rfl, rfl, rfl⟩)
      | (refine (fsk_feed_sim _ _ _ _ _ _ _ ?_ ?_).2 <;>
          first
          | exact ⟨rfl, rfl, rfl, rfl, rfl, rfl, rfl, rfl, rfl, rfl, rfl, rfl, rfl⟩
          | exact ⟨rfl, rfl, rfl⟩)

theorem ook_gap_start_sim (s1 s2 : PulseDetect) (p1 p2 f1 f2 : PulseData)
    (am fm thr : Int) (len1 len2 : Nat) (fp : Bool) (eop : Bool)
    (hs : SimS s1 s2) (hp : SimP p1 p2) (hf : SimP f1 f2) :
    StepOutSim (ook_gap_start s1 p1 f1 am fm thr len1 fp eop)
      (ook_gap_start s2 p2 f2 am fm thr len2 fp eop)
    ∧ (outS (ook_gap_start s1 p1 f1 am fm thr len1 fp eop)).use_peak_follower
        = s1.use_peak_follower := by
  obtain ⟨a1, a2, a3, a4, a5, a6, a7, a8, a9, a10, a11, a12, a13⟩ := hs
  obtain ⟨q1, q2, q3⟩ := hp
  obtain ⟨r1, r2, r3⟩ := hf
  obtain ⟨c1, c2, c3, c4, st, pl, mp, d1, lic, ole, ohe, fsk, mf, pf, pff⟩ := s1
  obtain ⟨b1, b2, b3, b4, b5, b6, b7, b8, b9, b10, b11, b12, b13, b14, b15⟩ := s2
  obtain ⟨n1, u1, g1, w1, w2, w3, w4, w5, w6, w7, w8⟩ := p1
  obtain ⟨n2, u2, g2, v1, v2, v3, v4, v5, v6, v7, v8⟩ := p2
  obtain ⟨fn1, fu1, fg1, x1, x2, x3, x4, x5, x6, x7, x8⟩ := f1
  obtain ⟨fn2, fu2, fg2, y1, y2, y3, y4, y5, y6, y7, y8⟩ := f2
  dsimp only at a1 a2 a3 a4 a5 a6 a7 a8 a9 a10 a11 a12 a13 q1 q2 q3 r1 r2 r3
  subst a1 a2 a3 a4 a5 a6 a7 a8 a9 a10 a11 a12 a13 q1 q2 q3 r1 r2 r3
  unfold ook_gap_start pulse_detect_fsk_wrap_up
  dsimp only
  split_ifs <;> (try dsimp only) <;>
    first
    | (refine ⟨⟨rfl, ⟨rfl, rfl, rfl, rfl, rfl, rfl, rfl, rfl, rfl, ?_, rfl, rfl, rfl⟩,
          ⟨rfl, rfl, rfl⟩, ⟨?_, ?_, ?_⟩⟩, rfl⟩ <;>
        first
        | (refine ((fsk_emit_sim _ ?_).1).symm <;> exact ⟨rfl, rfl, rfl⟩)
        | (refine (fsk_emit_sim _ ?_).2.1 <;> exact ⟨rfl, rfl, rfl⟩)
        | (refine (fsk_emit_sim _ ?_).2.2.1 <;> exact ⟨rfl, rfl, rfl⟩)
        | (refine (fsk_emit_sim _ ?_).2.2.2 <;> exact ⟨rfl, rfl, rfl⟩))
    | exact ⟨⟨rfl, ⟨rfl, rfl, rfl, rfl, rfl, rfl, rfl, rfl, rfl, rfl, rfl, rfl, rfl⟩,
        ⟨rfl, rfl, rfl⟩, ⟨rfl, rfl, rfl⟩⟩, rfl⟩
    | (refine ⟨⟨?_, ⟨rfl, rfl, rfl⟩, ?_, rfl⟩, ?_⟩ <;>
        first
        | exact fsk_feed_pf _ _ _ _ _
        | (refine (fsk_feed_sim _ _ _ _ _ _ _ ?_ ?_).1 <;>
            first
            | exact ⟨rfl, rfl, rfl, rfl, rfl, rfl, rfl, rfl, rfl, rfl, rfl, rfl, rfl⟩
            | exact ⟨rfl, rfl, rfl⟩)
        | (refine (fsk_feed_sim _ _ _ _ _ _ _ ?_ ?_).2 <;>
            first
            | exact ⟨rfl, rfl, rfl, rfl, rfl, rfl, rfl, rfl, rfl, rfl, rfl, rfl, rfl⟩
            | exact ⟨rfl, rfl, rfl⟩))

theorem ook_gap_sim (s1 s2 : PulseDetect) (p1 p2 f1 f2 : PulseData)
    (am thr : Int) (len1 len2 sr : Nat) (eop : Bool)
    (hs : SimS s1 s2) (hp : SimP p1 p2) (hf : SimP f1 f2) :
    StepOutSim (ook_gap s1 p1 f1 am thr len1 sr eop)
      (ook_gap s2 p2 f2 am thr len2 sr eop)
    ∧ (outS (ook_gap s1 p1 f1 am thr len1 sr eop)).use_peak_follower
        = s1.use_peak_follower := by
  obtain ⟨a1, a2, a3, a4, a5, a6, a7, a8, a9, a10, a11, a12, a13⟩ := hs
  obtain ⟨q1, q2, q3⟩ := hp
  obtain ⟨r1, r2, r3⟩ := hf
  obtain ⟨c1, c2, c3, c4, st, pl, mp, d1, lic, ole, ohe, fsk, mf, pf, pff⟩ := s1
  obtain ⟨b1, b2, b3, b4, b5, b6, b7, b8, b9, b10, b11, b12, b13, b14, b15⟩ := s2
  obtain ⟨n1, u1, g1, w1, w2, w3, w4, w5, w6, w7, w8⟩ := p1
  obtain ⟨n2, u2, g2, v1, v2, v3, v4, v5, v6, v7, v8⟩ := p2
  obtain ⟨fn1, fu1, fg1, x1, x2, x3, x4, x5, x6, x7, x8⟩ := f1
  obtain ⟨fn2, fu2, fg2, y1, y2, y3, y4, y5, y6, y7, y8⟩ := f2
  dsimp only at a1 a2 a3 a4 a5 a6 a7 a8 a9 a10 a11 a12 a13 q1 q2 q3 r1 r2 r3
  subst a1 a2 a3 a4 a5 a6 a7 a8 a9 a10 a11 a12 a13 q1 q2 q3 r1 r2 r3
  unfold ook_gap
  dsimp only
  split_ifs <;> (try dsimp only) <;>
    first
    | exact ⟨⟨rfl, ⟨rfl, rfl, rfl, rfl, rfl, rfl, rfl, rfl, rfl, rfl, rfl, rfl, rfl⟩,
        ⟨rfl, rfl, rfl⟩, ⟨rfl, rfl, rfl⟩⟩, rfl⟩
    | exact ⟨⟨⟨rfl, rfl, rfl, rfl, rfl, rfl, rfl, rfl, rfl, rfl, rfl, rfl, rfl⟩,
        ⟨rfl, rfl, rfl⟩, ⟨rfl, rfl, rfl⟩, rfl⟩, rfl⟩
    | simp_all

/-- Similar configurations step to similar outcomes, provided the detector
uses the peak-follower thresholds (in the classical mode the thresholds read
`ook_high_estimate`, on which similar states may disagree). -/
theorem pulse_detect_step_sim (s1 s2 : PulseDetect) (p1 p2 f1 f2 : PulseData)
    (er fr : Int) (len1 len2 sr off1 off2 : Nat) (fp : Bool) (eop : Bool)
    (hpf : s1.use_peak_follower = true)
    (hs : SimS s1 s2) (hp : SimP p1 p2) (hf : SimP f1 f2) :
    StepOutSim (pulse_detect_step s1 p1 f1 er fr len1 sr off1 fp eop)
      (pulse_detect_step s2 p2 f2 er fr len2 sr off2 fp eop)
    ∧ (outS (pulse_detect_step s1 p1 f1 er fr len1 sr off1 fp eop)).use_peak_follower
        = s1.use_peak_follower := by
  obtain ⟨a1, a2, a3, a4, a5, a6, a7, a8, a9, a10, a11, a12, a13⟩ := hs
  obtain ⟨c1, c2, c3, c4, st, pl, mp, d1, lic, ole, ohe, fsk, mf, pf, pff⟩ := s1
  obtain ⟨b1, b2, b3, b4, b5, b6, b7, b8, b9, b10, b11, b12, b13, b14, b15⟩ := s2
  dsimp only at a1 a2 a3 a4 a5 a6 a7 a8 a9 a10 a11 a12 a13 hpf
  subst a1 a2 a3 a4 a5 a6 a7 a8 a9 a10 a11 a12 a13
  unfold pulse_detect_step pulse_detect_prepare
  dsimp only
  rw [if_pos hpf]
  try rw [if_pos hpf]
  dsimp only
  cases b5 <;> dsimp only
  · refine ook_idle_sim _ _ _ _ _ _ _ _ _ _ _ _ _ _ ?_ hp hf
    exact ⟨rfl, rfl, rfl, rfl, rfl, rfl, rfl, rfl, rfl, rfl, rfl, rfl, rfl⟩
  · refine ook_pulse_sim _ _ _ _ _ _ _ _ _ _ _ ?_ hp hf
    exact ⟨rfl, rfl, rfl, rfl, rfl, rfl, rfl, rfl, rfl, rfl, rfl, rfl, rfl⟩
  · refine ook_gap_start_sim _ _ _ _ _ _ _ _ _ _ _ _ _ ?_ hp hf
    exact ⟨rfl, rfl, rfl, rfl, rfl, rfl, rfl, rfl, rfl, rfl, rfl, rfl, rfl⟩
  · refine ook_gap_sim _ _ _ _ _ _ _ _ _ _ _ _ ?_ hp hf
    exact ⟨rfl, rfl, rfl, rfl, rfl, rfl, rfl, rfl, rfl, rfl, rfl, rfl, rfl⟩

theorem simS_dc {s1 s2 : PulseDetect} (h : SimS s1 s2) (a b : Nat) :
    SimS { s1 with data_counter := a } { s2 with data_counter := b } := h

theorem simS_dh {s1 s2 : PulseDetect} (h : SimS s1 s2) (a b : Nat) (x y : Int) :
    SimS { s1 with data_counter := a, ook_high_estimate := x }
      { s2 with data_counter := b, ook_high_estimate := y } := h

theorem simP_side {p1 p2 : PulseData} (h : SimP p1 p2) (c1 c2 : Prop)
    [Decidable c1] [Decidable c2] (x1 x2 : Int) :
    SimP (if c1 then { p1 with start_ago := x1 } else p1)
      (if c2 then { p2 with start_ago := x2 } else p2) := by
  split_ifs <;> exact ⟨h.1, h.2.1, h.2.2⟩

/-- Chunk-outcome similarity over `n` samples starting at positions `d1`
and `d2` of the respective buffers. -/
def ChunkRel (n d1 d2 : Nat) : ChunkOut → ChunkOut → Prop
  | .more s1 p1 f1 e1 _, .more s2 p2 f2 e2 _ =>
      SimS s1 s2 ∧ SimP p1 p2 ∧ SimP f1 f2 ∧ e1 = e2 ∧ s1.use_peak_follower = true
  | .ret c1 s1 p1 f1 _, .ret c2 s2 p2 f2 _ =>
      c1 = c2 ∧ SimS s1 s2 ∧ SimP p1 p2 ∧ SimP f1 f2 ∧ s1.use_peak_follower = true
      ∧ ∃ j, j < n ∧ s1.data_counter = d1 + j ∧ s2.data_counter = d2 + j
  | _, _ => False

theorem chunkRel_shift {n d1 d2 : Nat} {o1 o2 : ChunkOut}
    (h : ChunkRel n (d1 + 1) (d2 + 1) o1 o2) : ChunkRel (n + 1) d1 d2 o1 o2 := by
  cases o1 with
  | more s1 p1 f1 e1 t1 =>
    cases o2 with
    | more s2 p2 f2 e2 t2 => exact h
    | ret c2 s2 p2 f2 t2 => exact h
  | ret c1 s1 p1 f1 t1 =>
    cases o2 with
    | more s2 p2 f2 e2 t2 => exact h
    | ret c2 s2 p2 f2 t2 =>
      obtain ⟨hc, hs, hp, hf, hpf, j, hj, h1, h2⟩ := h
      exact ⟨hc, hs, hp, hf, hpf, j + 1, by omega, by omega, by omega⟩

/-- Two loop runs over the same number of samples, started from similar
configurations and fed pointwise-equal samples, end in related outcomes. -/
theorem pulse_detect_chunk_sim (E F env2 fm2 : List Int) (L len2 sr off1 off2 : Nat)
    (fp : Bool) :
    ∀ (n d1 d2 : Nat) (s1 s2 : PulseDetect) (p1 p2 f1 f2 : PulseData) (eop : Bool)
      (tr1 tr2 : List Nat),
      s1.use_peak_follower = true →
      SimS s1 s2 → SimP p1 p2 → SimP f1 f2 →
      (∀ k, k < n → E.getD (d1 + k) 0 = env2.getD (d2 + k) 0) →
      (∀ k, k < n → F.getD (d1 + k) 0 = fm2.getD (d2 + k) 0) →
      ChunkRel n d1 d2
        (pulse_detect_chunk E F L sr off1 fp (List.range' d1 n) s1 p1 f1 eop tr1)
        (pulse_detect_chunk env2 fm2 len2 sr off2 fp (List.range' d2 n) s2 p2 f2 eop tr2) := by
  intro n
  induction n with
  | zero =>
    intro d1 d2 s1 s2 p1 p2 f1 f2 eop tr1 tr2 hpf hs hp hf _ _
    exact ⟨hs, hp, hf, rfl, hpf⟩
  | succ n ih =>
    intro d1 d2 s1 s2 p1 p2 f1 f2 eop tr1 tr2 hpf hs hp hf hE hF
    have he0 : env2.getD d2 0 = E.getD d1 0 := by
      have h := hE 0 (Nat.succ_pos n)
      simpa using h.symm
    have hg0 : fm2.getD d2 0 = F.getD d1 0 := by
      have h := hF 0 (Nat.succ_pos n)
      simpa using h.symm
    rw [List.range'_succ, List.range'_succ]
    unfold pulse_detect_chunk
    rw [he0, hg0]
    have hss := pulse_detect_step_sim { s1 with data_counter := d1 }
      { s2 with data_counter := d2 } p1 p2 f1 f2 (E.getD d1 0) (F.getD d1 0)
      L len2 sr off1 off2 fp eop hpf (simS_dc hs d1 d2) hp hf
    have hd1 := pulse_detect_step_spec { s1 with data_counter := d1 } p1 f1
      (E.getD d1 0) (F.getD d1 0) L sr off1 fp eop
    have hd2 := pulse_detect_step_spec { s2 with data_counter := d2 } p2 f2
      (E.getD d1 0) (F.getD d1 0) len2 sr off2 fp eop
    revert hss hd1 hd2
    cases h1 : pulse_detect_step { s1 with data_counter := d1 } p1 f1 (E.getD d1 0)
        (F.getD d1 0) L sr off1 fp eop with
    | next s1' p1' f1' e1 =>
      cases h2 : pulse_detect_step { s2 with data_counter := d2 } p2 f2 (E.getD d1 0)
          (F.getD d1 0) len2 sr off2 fp eop with
      | next s2' p2' f2' e2 =>
        intro hss _ _
        dsimp only
        obtain ⟨⟨hs', hp', hf', he'⟩, hpf'⟩ := hss
        cases he'
        refine chunkRel_shift (ih (d1 + 1) (d2 + 1) s1' s2' p1' p2' f1' f2' e1 _ _
          (hpf'.trans hpf) hs' hp' hf' ?_ ?_)
        · intro k hk
          have h := hE (k + 1) (by omega)
          rw [show d1 + 1 + k = d1 + (k + 1) from by omega,
            show d2 + 1 + k = d2 + (k + 1) from by omega]
          exact h
        · intro k hk
          have h := hF (k + 1) (by omega)
          rw [show d1 + 1 + k = d1 + (k + 1) from by omega,
            show d2 + 1 + k = d2 + (k + 1) from by omega]
          exact h
      | ret c2 s2' p2' f2' =>
        intro hss _ _
        exact hss.1.elim
    | ret c1 s1' p1' f1' =>
      cases h2 : pulse_detect_step { s2 with data_counter := d2 } p2 f2 (E.getD d1 0)
          (F.getD d1 0) len2 sr off2 fp eop with
      | next s2' p2' f2' e2 =>
        intro hss _ _
        exact hss.1.elim
      | ret c2 s2' p2' f2' =>
        intro hss hd1 hd2
        dsimp only
        dsimp only at hd1 hd2
        obtain ⟨⟨hc, hs', hp', hf'⟩, hpf'⟩ := hss
        exact ⟨hc, hs', hp', hf', hpf'.trans hpf, 0, Nat.succ_pos n,
          by rw [hd1.1]; omega, by rw [hd2.1]; omega⟩

/-- One-step unfolding of the loop on a non-empty index list. -/
theorem pulse_detect_chunk_cons (env fm : List Int) (len sr off : Nat) (fp : Bool)
    (d : Nat) (l : List Nat) (s : PulseDetect) (p f : PulseData) (eop : Bool)
    (tr : List Nat) :
    pulse_detect_chunk env fm len sr off fp (d :: l) s p f eop tr
      = match pulse_detect_step { s with data_counter := d } p f (env.getD d 0) (fm.getD d 0)
          len sr off fp eop with
        | .next s' p' f' eop' =>
            pulse_detect_chunk env fm len sr off fp l s' p' f' eop' (tr ++ [d])
        | .ret code s' p' f' => .ret code s' p' f' (tr ++ [d]) := rfl

/-- Splitting the index list of the loop: the loop over `l1 ++ l2` runs the
loop over `l1` and, unless that returned, continues over `l2` from where it
stopped. -/
theorem pulse_detect_chunk_append (env fm : List Int) (len sr off : Nat) (fp : Bool) :
    ∀ (l1 l2 : List Nat) (s : PulseDetect) (p f : PulseData) (eop : Bool) (tr : List Nat),
      pulse_detect_chunk env fm len sr off fp (l1 ++ l2) s p f eop tr
        = match pulse_detect_chunk env fm len sr off fp l1 s p f eop tr with
          | .more s' p' f' eop' tr' =>
              pulse_detect_chunk env fm len sr off fp l2 s' p' f' eop' tr'
          | .ret c s' p' f' tr' => .ret c s' p' f' tr' := by
  intro l1
  induction l1 with
  | nil => intro l2 s p f eop tr; rfl
  | cons d rest ih =>
    intro l2 s p f eop tr
    rw [List.cons_append, pulse_detect_chunk_cons, pulse_detect_chunk_cons]
    cases h1 : pulse_detect_step { s with data_counter := d } p f (env.getD d 0) (fm.getD d 0)
        len sr off fp eop with
    | next s1 p1 f1 e1 =>
      dsimp only
      exact ih l2 s1 p1 f1 e1 (tr ++ [d])
    | ret c s1 p1 f1 =>
      dsimp only

theorem simS_symm {s1 s2 : PulseDetect} (h : SimS s1 s2) : SimS s2 s1 :=
  ⟨h.1.symm, h.2.1.symm, h.2.2.1.symm, h.2.2.2.1.symm, h.2.2.2.2.1.symm,
   h.2.2.2.2.2.1.symm, h.2.2.2.2.2.2.1.symm, h.2.2.2.2.2.2.2.1.symm,
   h.2.2.2.2.2.2.2.2.1.symm, h.2.2.2.2.2.2.2.2.2.1.symm,
   h.2.2.2.2.2.2.2.2.2.2.1.symm, h.2.2.2.2.2.2.2.2.2.2.2.1.symm,
   h.2.2.2.2.2.2.2.2.2.2.2.2.symm⟩

theorem simP_symm {p1 p2 : PulseData} (h : SimP p1 p2) : SimP p2 p1 :=
  ⟨h.1.symm, h.2.1.symm, h.2.2.symm⟩

theorem simS_entry {s1 s2 : PulseDetect} (h : SimS s1 s2) (x : Int) :
    SimS s1 { s2 with ook_high_estimate := x } := h

theorem simS_entry_left {s1 s2 : PulseDetect} (h : SimS s1 s2) (x : Int) :
    SimS { s1 with ook_high_estimate := x } s2 := h

theorem simS_dc_right {s1 s2 : PulseDetect} (h : SimS s1 s2) (a : Nat) :
    SimS s1 { s2 with data_counter := a } := h

theorem simP_entry {p1 p2 : PulseData} (h : SimP p1 p2) (c : Prop) [Decidable c] (x : Int) :
    SimP p1 (if c then { p2 with start_ago := x } else p2) := by
  split_ifs
  · exact ⟨h.1, h.2.1, h.2.2⟩
  · exact h

theorem simP_entry_left {p1 p2 : PulseData} (h : SimP p1 p2) (c : Prop) [Decidable c]
    (x : Int) :
    SimP (if c then { p1 with start_ago := x } else p1) p2 := by
  split_ifs
  · exact ⟨h.1, h.2.1, h.2.2⟩
  · exact h

theorem range'_split (m : Nat) : ∀ (s n : Nat),
    List.range' s (m + n) = List.range' s m ++ List.range' (s + m) n := by
  induction m with
  | zero => intro s n; simp
  | succ m ih =>
    intro s n
    rw [show m + 1 + n = (m + n) + 1 from by omega, List.range'_succ, ih (s + 1) n,
      List.range'_succ, List.cons_append, show s + 1 + m = s + (m + 1) from by omega]

theorem getD_drop (l : List Int) : ∀ (n k : Nat), (l.drop n).getD k 0 = l.getD (n + k) 0 := by
  induction l with
  | nil => intro n k; simp
  | cons x xs ih =>
    intro n k
    cases n with
    | zero => simp
    | succ n =>
      rw [List.drop_succ_cons, ih n k, show n + 1 + k = (n + k) + 1 from by omega,
        List.getD_cons_succ]

/-- `pulse_detect_package` unfolded: entry operations, then the loop. -/
theorem pulse_detect_package_eq (s : PulseDetect) (p f : PulseData) (env fm : List Int)
    (len sr off : Nat) (fp : Bool) :
    pulse_detect_package s p f env fm len sr off fp
      = match pulse_detect_chunk env fm len sr off fp
          (List.range' s.data_counter (len - s.data_counter))
          { s with ook_high_estimate := max s.ook_high_estimate s.ook_min_high_level }
          (if s.data_counter = 0 then { p with start_ago := p.start_ago + len } else p)
          (if s.data_counter = 0 then { f with start_ago := f.start_ago + len } else f)
          false [] with
        | .more s' p' f' eop tr => ⟨0, { s' with data_counter := 0 }, p', f', tr, eop⟩
        | .ret code s' p' f' tr => ⟨code, s', p', f', tr, false⟩ := rfl

/-- The calling protocol emits a determined output sequence. -/
theorem callsEmit_unique (env fm : List Int) (sr off : Nat) (fp : Bool) :
    ∀ {s : PulseDetect} {p f : PulseData} {outs1 sF1 pF1 fF1 e1},
      CallsEmit env fm sr off fp s p f outs1 sF1 pF1 fF1 e1 →
      ∀ {outs2 sF2 pF2 fF2 e2},
      CallsEmit env fm sr off fp s p f outs2 sF2 pF2 fF2 e2 →
      outs1 = outs2 := by
  intro s p f outs1 sF1 pF1 fF1 e1 h1
  induction h1 with
  | exhaust s p f hc =>
    intro outs2 sF2 pF2 fF2 e2 h2
    cases h2 with
    | exhaust _ _ _ _ => rfl
    | emit _ _ _ _ _ _ _ _ hc2 _ => exact absurd hc hc2
  | emit s p f outs sF pF fF e hc hrec ih =>
    intro outs2 sF2 pF2 fF2 e2 h2
    cases h2 with
    | exhaust _ _ _ hc2 => exact absurd hc2 hc
    | emit _ _ _ outs' _ _ _ _ hc2 hrec2 => rw [ih hrec2]

/-- A finished buffer leaves the detector at position zero. -/
theorem callsEmit_final_dc (env fm : List Int) (sr off : Nat) (fp : Bool) :
    ∀ {s : PulseDetect} {p f : PulseData} {outs sF pF fF e},
      CallsEmit env fm sr off fp s p f outs sF pF fF e →
      sF.data_counter = 0 := by
  intro s p f outs sF pF fF e h
  induction h with
  | exhaust s p f hc =>
    rw [pulse_detect_package_eq] at hc ⊢
    revert hc
    cases hch : pulse_detect_chunk env fm env.length sr off fp
        (List.range' s.data_counter (env.length - s.data_counter))
        { s with ook_high_estimate := max s.ook_high_estimate s.ook_min_high_level }
        (if s.data_counter = 0 then { p with start_ago := p.start_ago + env.length } else p)
        (if s.data_counter = 0 then { f with start_ago := f.start_ago + env.length } else f)
        false [] with
    | more s' p' f' eop tr => intro _; rfl
    | ret c s' p' f' tr =>
      intro hc
      have hcs := pulse_detect_chunk_spec env fm env.length sr off fp
        (List.range' s.data_counter (env.length - s.data_counter))
        { s with ook_high_estimate := max s.ook_high_estimate s.ook_min_high_level }
        (if s.data_counter = 0 then { p with start_ago := p.start_ago + env.length } else p)
        (if s.data_counter = 0 then { f with start_ago := f.start_ago + env.length } else f)
        false []
      rw [hch] at hcs
      dsimp only at hc hcs
      rcases hcs.2.2.1 with h | h <;> rw [h] at hc <;> exact absurd hc (by decide)
  | emit s p f outs sF pF fF e hc hrec ih => exact ih

/-- The unsplit run: some complete calling protocol on the concatenated
buffer emits `outs` from this configuration. -/
def UnsplitFrom (E F : List Int) (sr off : Nat) (fp : Bool) (s : PulseDetect)
    (p f : PulseData)
    (outs : List (Nat × (Nat × (Nat → Int) × (Nat → Int)) × (Nat × (Nat → Int) × (Nat → Int)))) :
    Prop :=
  ∃ sF pF fF e, CallsEmit E F sr off fp s p f outs sF pF fF e

/-- The calling protocol over a list of buffers with clean boundaries: every
buffer-exhausting call that is followed by another buffer ends with the
call-local `eop_on_spurious` flag clear. -/
inductive BufsEmitClean (samp_rate sample_offset : Nat) (fpdm_old : Bool) :
    PulseDetect → PulseData → PulseData → List (List Int × List Int) →
    List (Nat × (Nat × (Nat → Int) × (Nat → Int)) × (Nat × (Nat → Int) × (Nat → Int))) →
    Prop where
  | nil : ∀ s p f, BufsEmitClean samp_rate sample_offset fpdm_old s p f [] []
  | cons : ∀ s p f b bufs outs1 outs2 sF pF fF e,
      CallsEmit b.1 b.2 samp_rate sample_offset fpdm_old s p f outs1 sF pF fF e →
      (bufs = [] ∨ e = false) →
      BufsEmitClean samp_rate sample_offset fpdm_old sF pF fF bufs outs2 →
      BufsEmitClean samp_rate sample_offset fpdm_old s p f (b :: bufs) (outs1 ++ outs2)

/-- One buffer of the split run against the unsplit run.  The unsplit run
owes a "pending" replay: the next unsplit call, started from
`(s1, p1, f1)`, first re-traverses `m` samples and reaches a configuration
similar to the split one; every package the split run emits from the
current buffer is then emitted with equal code and contents by the unsplit
run, and when the buffer is exhausted the pending replay has grown by the
buffer remainder, ending with the same `eop_on_spurious` value the split
call ended with. -/
theorem calls_emit_sim (E F benv bfm : List Int) (sr off1 off2 : Nat) (fp : Bool) :
    ∀ {s2 : PulseDetect} {p2 f2 : PulseData} {outs sF pF fF e},
      CallsEmit benv bfm sr off2 fp s2 p2 f2 outs sF pF fF e →
      ∀ s1 p1 f1 m s1m p1m f1m tr0,
      s1.use_peak_follower = true →
      s1m.use_peak_follower = true →
      pulse_detect_chunk E F E.length sr off1 fp (List.range' s1.data_counter m)
          { s1 with ook_high_estimate := max s1.ook_high_estimate s1.ook_min_high_level }
          (if s1.data_counter = 0 then { p1 with start_ago := p1.start_ago + E.length }
           else p1)
          (if s1.data_counter = 0 then { f1 with start_ago := f1.start_ago + E.length }
           else f1)
          false []
        = .more s1m p1m f1m false tr0 →
      SimS s1m s2 → SimP p1m p2 → SimP f1m f2 →
      s2.data_counter ≤ benv.length →
      benv.length = bfm.length →
      s1.data_counter + m + (benv.length - s2.data_counter) ≤ E.length →
      (∀ k, s2.data_counter + k < benv.length →
        E.getD (s1.data_counter + m + k) 0 = benv.getD (s2.data_counter + k) 0) →
      (∀ k, s2.data_counter + k < benv.length →
        F.getD (s1.data_counter + m + k) 0 = bfm.getD (s2.data_counter + k) 0) →
      ∃ s1' p1' f1' m' s1m' p1m' f1m' tr',
        s1'.use_peak_follower = true
        ∧ s1m'.use_peak_follower = true
        ∧ s1'.data_counter + m' = s1.data_counter + m + (benv.length - s2.data_counter)
        ∧ pulse_detect_chunk E F E.length sr off1 fp (List.range' s1'.data_counter m')
            { s1' with ook_high_estimate := max s1'.ook_high_estimate s1'.ook_min_high_level }
            (if s1'.data_counter = 0 then { p1' with start_ago := p1'.start_ago + E.length }
             else p1')
            (if s1'.data_counter = 0 then { f1' with start_ago := f1'.start_ago + E.length }
             else f1')
            false []
          = .more s1m' p1m' f1m' e tr'
        ∧ SimS s1m' sF ∧ SimP p1m' pF ∧ SimP f1m' fF
        ∧ (∀ outs2, UnsplitFrom E F sr off1 fp s1' p1' f1' outs2 →
            UnsplitFrom E F sr off1 fp s1 p1 f1 (outs ++ outs2)) := by
  intro s2 p2 f2 outs sF pF fF e h
  induction h with
  | exhaust s2 p2 f2 hc =>
    intro s1 p1 f1 m s1m p1m f1m tr0 hu1 hum hpend hsim hp hf hd2 hbl hcnt hAE hAF
    rw [pulse_detect_package_eq] at hc
    have hrel := pulse_detect_chunk_sim E F benv bfm E.length benv.length sr off1 off2 fp
      (benv.length - s2.data_counter) (s1.data_counter + m) s2.data_counter
      s1m { s2 with ook_high_estimate := max s2.ook_high_estimate s2.ook_min_high_level }
      p1m (if s2.data_counter = 0 then { p2 with start_ago := p2.start_ago + benv.length }
           else p2)
      f1m (if s2.data_counter = 0 then { f2 with start_ago := f2.start_ago + benv.length }
           else f2)
      false tr0 [] hum (simS_entry hsim _) (simP_entry hp _ _) (simP_entry hf _ _)
      (fun k hk => hAE k (by omega)) (fun k hk => hAF k (by omega))
    revert hrel hc
    cases hn2 : pulse_detect_chunk benv bfm benv.length sr off2 fp
        (List.range' s2.data_counter (benv.length - s2.data_counter))
        { s2 with ook_high_estimate := max s2.ook_high_estimate s2.ook_min_high_level }
        (if s2.data_counter = 0 then { p2 with start_ago := p2.start_ago + benv.length }
         else p2)
        (if s2.data_counter = 0 then { f2 with start_ago := f2.start_ago + benv.length }
         else f2)
        false [] with
    | ret c2 s2' p2' f2' tr2 =>
      intro hc hrel
      dsimp only at hc
      have hcs := pulse_detect_chunk_spec benv bfm benv.length sr off2 fp
        (List.range' s2.data_counter (benv.length - s2.data_counter))
        { s2 with ook_high_estimate := max s2.ook_high_estimate s2.ook_min_high_level }
        (if s2.data_counter = 0 then { p2 with start_ago := p2.start_ago + benv.length }
         else p2)
        (if s2.data_counter = 0 then { f2 with start_ago := f2.start_ago + benv.length }
         else f2)
        false []
      rw [hn2] at hcs
      dsimp only at hcs
      rcases hcs.2.2.1 with hx | hx <;> rw [hx] at hc <;> exact absurd hc (by decide)
    | more s2m p2m f2m e2 tr2 =>
      intro hc hrel
      have hPS : pulse_detect_package s2 p2 f2 benv bfm benv.length sr off2 fp
          = ⟨0, { s2m with data_counter := 0 }, p2m, f2m, tr2, e2⟩ := by
        rw [pulse_detect_package_eq, hn2]
      revert hrel
      cases hn1 : pulse_detect_chunk E F E.length sr off1 fp
          (List.range' (s1.data_counter + m) (benv.length - s2.data_counter))
          s1m p1m f1m false tr0 with
      | ret c1 s1' p1' f1' tr1 =>
        intro hrel
        exact hrel.elim
      | more s1m2 p1m2 f1m2 e1 tr1 =>
        intro hrel
        obtain ⟨hs', hp', hf', he, hupf2⟩ := hrel
        have hpend2 : pulse_detect_chunk E F E.length sr off1 fp
            (List.range' s1.data_counter (m + (benv.length - s2.data_counter)))
            { s1 with ook_high_estimate := max s1.ook_high_estimate s1.ook_min_high_level }
            (if s1.data_counter = 0 then { p1 with start_ago := p1.start_ago + E.length }
             else p1)
            (if s1.data_counter = 0 then { f1 with start_ago := f1.start_ago + E.length }
             else f1)
            false []
            = .more s1m2 p1m2 f1m2 e1 tr1 := by
          rw [range'_split, pulse_detect_chunk_append, hpend]
          exact hn1
        rw [hPS]
        refine ⟨s1, p1, f1, m + (benv.length - s2.data_counter), s1m2, p1m2, f1m2, tr1,
          hu1, hupf2, by omega, ?_, ?_, hp', hf', ?_⟩
        · rw [hpend2, he]
        · exact simS_dc_right hs' 0
        · intro outs2 hout
          simpa using hout
  | emit s2 p2 f2 outsTail sF pF fF e hc hcall ih =>
    intro s1 p1 f1 m s1m p1m f1m tr0 hu1 hum hpend hsim hp hf hd2 hbl hcnt hAE hAF
    rw [pulse_detect_package_eq] at hc
    have hrel := pulse_detect_chunk_sim E F benv bfm E.length benv.length sr off1 off2 fp
      (benv.length - s2.data_counter) (s1.data_counter + m) s2.data_counter
      s1m { s2 with ook_high_estimate := max s2.ook_high_estimate s2.ook_min_high_level }
      p1m (if s2.data_counter = 0 then { p2 with start_ago := p2.start_ago + benv.length }
           else p2)
      f1m (if s2.data_counter = 0 then { f2 with start_ago := f2.start_ago + benv.length }
           else f2)
      false tr0 [] hum (simS_entry hsim _) (simP_entry hp _ _) (simP_entry hf _ _)
      (fun k hk => hAE k (by omega)) (fun k hk => hAF k (by omega))
    revert hrel hc
    cases hn2 : pulse_detect_chunk benv bfm benv.length sr off2 fp
        (List.range' s2.data_counter (benv.length - s2.data_counter))
        { s2 with ook_high_estimate := max s2.ook_high_estimate s2.ook_min_high_level }
        (if s2.data_counter = 0 then { p2 with start_ago := p2.start_ago + benv.length }
         else p2)
        (if s2.data_counter = 0 then { f2 with start_ago := f2.start_ago + benv.length }
         else f2)
        false [] with
    | more s2m p2m f2m e2 tr2 =>
      intro hc hrel
      dsimp only at hc
      exact absurd rfl hc
    | ret c2 s2' p2' f2' tr2 =>
      intro hc hrel
      dsimp only at hc
      have hPS : pulse_detect_package s2 p2 f2 benv bfm benv.length sr off2 fp
          = ⟨c2, s2', p2', f2', tr2, false⟩ := by
        rw [pulse_detect_package_eq, hn2]
      revert hrel
      cases hn1 : pulse_detect_chunk E F E.length sr off1 fp
          (List.range' (s1.data_counter + m) (benv.length - s2.data_counter))
          s1m p1m f1m false tr0 with
      | more s1m2 p1m2 f1m2 e1 tr1 =>
        intro hrel
        exact hrel.elim
      | ret c1 s1' p1' f1' tr1 =>
        intro hrel
        obtain ⟨hcc, hs', hp', hf', hupf2, j, hj, hdc1, hdc2⟩ := hrel
        have hwhole : pulse_detect_chunk E F E.length sr off1 fp
            (List.range' s1.data_counter (E.length - s1.data_counter))
            { s1 with ook_high_estimate := max s1.ook_high_estimate s1.ook_min_high_level }
            (if s1.data_counter = 0 then { p1 with start_ago := p1.start_ago + E.length }
             else p1)
            (if s1.data_counter = 0 then { f1 with start_ago := f1.start_ago + E.length }
             else f1)
            false []
            = .ret c1 s1' p1' f1' tr1 := by
          rw [show E.length - s1.data_counter
              = (m + (benv.length - s2.data_counter))
                + (E.length - s1.data_counter - (m + (benv.length - s2.data_counter)))
            from by omega]
          rw [range'_split, pulse_detect_chunk_append]
          rw [range'_split, pulse_detect_chunk_append, hpend]
          dsimp only
          rw [hn1]
        have hU : pulse_detect_package s1 p1 f1 E F E.length sr off1 fp
            = ⟨c1, s1', p1', f1', tr1, false⟩ := by
          rw [pulse_detect_package_eq, hwhole]
        have hne : (pulse_detect_package s1 p1 f1 E F E.length sr off1 fp).code ≠ 0 := by
          rw [hU]
          dsimp only
          rw [hcc]
          exact hc
        rw [hPS] at ih
        dsimp only at ih
        have hih := ih s1' p1' f1' 0
          { s1' with ook_high_estimate := max s1'.ook_high_estimate s1'.ook_min_high_level }
          (if s1'.data_counter = 0 then { p1' with start_ago := p1'.start_ago + E.length }
           else p1')
          (if s1'.data_counter = 0 then { f1' with start_ago := f1'.start_ago + E.length }
           else f1')
          [] hupf2 hupf2 rfl (simS_entry_left hs' _) (simP_entry_left hp' _ _)
          (simP_entry_left hf' _ _) (by omega) hbl (by omega)
          (fun k hk => by
            have hx := hAE (j + k) (by omega)
            rw [show s1'.data_counter + 0 + k = s1.data_counter + m + (j + k) from by omega,
              show s2'.data_counter + k = s2.data_counter + (j + k) from by omega]
            exact hx)
          (fun k hk => by
            have hx := hAF (j + k) (by omega)
            rw [show s1'.data_counter + 0 + k = s1.data_counter + m + (j + k) from by omega,
              show s2'.data_counter + k = s2.data_counter + (j + k) from by omega]
            exact hx)
        obtain ⟨s1n, p1n, f1n, mn, s1mn, p1mn, f1mn, trn,
          q1, q2, q3, q4, q5, q6, q7, q8⟩ := hih
        refine ⟨s1n, p1n, f1n, mn, s1mn, p1mn, f1mn, trn, q1, q2, by omega, q4, q5, q6, q7, ?_⟩
        intro outs2 hout
        have h2 := q8 outs2 hout
        obtain ⟨za, zb, zc, zd, hz⟩ := h2
        have hproj : (pulse_detect_package s1 p1 f1 E F E.length sr off1 fp).s = s1'
            ∧ (pulse_detect_package s1 p1 f1 E F E.length sr off1 fp).pulses = p1'
            ∧ (pulse_detect_package s1 p1 f1 E F E.length sr off1 fp).fsk_pulses = f1' := by
          rw [hU]
          exact ⟨rfl, rfl, rfl⟩
        rw [← hproj.1, ← hproj.2.1, ← hproj.2.2] at hz
        have hemit := CallsEmit.emit s1 p1 f1 (outsTail ++ outs2) za zb zc zd hne hz
        rw [hU] at hemit
        dsimp only at hemit
        rw [List.cons_append, hPS]
        dsimp only
        rw [← hcc, ← simP_erase hp', ← simP_erase hf']
        exact ⟨za, zb, zc, zd, hemit⟩

/-- The split run over a buffer list with clean boundaries is matched by a
complete unsplit calling protocol on the concatenation, provided the
detector runs in peak-follower mode and the pending replay invariant holds
on entry. -/
theorem bufs_emit_sim (E F : List Int) (sr off1 off2 : Nat) (fp : Bool) :
    ∀ {s2 : PulseDetect} {p2 f2 : PulseData} {bufs outs},
      BufsEmitClean sr off2 fp s2 p2 f2 bufs outs →
      ∀ s1 p1 f1 m s1m p1m f1m tr0 ee,
      s1.use_peak_follower = true →
      s1m.use_peak_follower = true →
      pulse_detect_chunk E F E.length sr off1 fp (List.range' s1.data_counter m)
          { s1 with ook_high_estimate := max s1.ook_high_estimate s1.ook_min_high_level }
          (if s1.data_counter = 0 then { p1 with start_ago := p1.start_ago + E.length }
           else p1)
          (if s1.data_counter = 0 then { f1 with start_ago := f1.start_ago + E.length }
           else f1)
          false []
        = .more s1m p1m f1m ee tr0 →
      (bufs = [] ∨ ee = false) →
      SimS s1m s2 → SimP p1m p2 → SimP f1m f2 →
      s2.data_counter = 0 →
      s1.data_counter + m ≤ E.length →
      E.drop (s1.data_counter + m) = (bufs.map (fun x => x.1)).flatten →
      F.drop (s1.data_counter + m) = (bufs.map (fun x => x.2)).flatten →
      (∀ x ∈ bufs, x.1.length = x.2.length) →
      UnsplitFrom E F sr off1 fp s1 p1 f1 outs := by
  intro s2 p2 f2 bufs outs h
  induction h with
  | nil s2 p2 f2 =>
    intro s1 p1 f1 m s1m p1m f1m tr0 ee hu1 hum hpend hee hsim hp hf hd2 hbound hEa hFa hlen
    have hLe : E.length ≤ s1.data_counter + m :=
      List.drop_eq_nil_iff.mp (by simpa using hEa)
    have hwhole : pulse_detect_chunk E F E.length sr off1 fp
        (List.range' s1.data_counter (E.length - s1.data_counter))
        { s1 with ook_high_estimate := max s1.ook_high_estimate s1.ook_min_high_level }
        (if s1.data_counter = 0 then { p1 with start_ago := p1.start_ago + E.length }
         else p1)
        (if s1.data_counter = 0 then { f1 with start_ago := f1.start_ago + E.length }
         else f1)
        false []
        = .more s1m p1m f1m ee tr0 := by
      rw [show E.length - s1.data_counter = m from by omega]
      exact hpend
    have hU : pulse_detect_package s1 p1 f1 E F E.length sr off1 fp
        = ⟨0, { s1m with data_counter := 0 }, p1m, f1m, tr0, ee⟩ := by
      rw [pulse_detect_package_eq, hwhole]
    exact ⟨_, _, _, _, CallsEmit.exhaust s1 p1 f1 (by rw [hU])⟩
  | cons s2 p2 f2 b bufs outs1 outs2 sF pF fF e hcall hclean hrest ih =>
    intro s1 p1 f1 m s1m p1m f1m tr0 ee hu1 hum hpend hee hsim hp hf hd2 hbound hEa hFa hlen
    have hee' : ee = false := by
      rcases hee with hx | hx
      · exact absurd hx (by simp)
      · exact hx
    subst hee'
    have hlb : b.1.length = b.2.length := hlen b (by simp)
    have hEl : E.length - (s1.data_counter + m) = ((b :: bufs).map (fun x => x.1)).flatten.length := by
      rw [← hEa, List.length_drop]
    have hflat : ((b :: bufs).map (fun x => x.1)).flatten
        = b.1 ++ (bufs.map (fun x => x.1)).flatten := by simp
    have hflatF : ((b :: bufs).map (fun x => x.2)).flatten
        = b.2 ++ (bufs.map (fun x => x.2)).flatten := by simp
    rw [hflat, List.length_append] at hEl
    have hcnt : s1.data_counter + m + (b.1.length - s2.data_counter) ≤ E.length := by
      omega
    have hAE : ∀ k, s2.data_counter + k < b.1.length →
        E.getD (s1.data_counter + m + k) 0 = b.1.getD (s2.data_counter + k) 0 := by
      intro k hk
      rw [← getD_drop E (s1.data_counter + m) k, hEa, hflat,
        List.getD_append _ _ _ _ (by omega), hd2, Nat.zero_add]
    have hAF : ∀ k, s2.data_counter + k < b.1.length →
        F.getD (s1.data_counter + m + k) 0 = b.2.getD (s2.data_counter + k) 0 := by
      intro k hk
      rw [← getD_drop F (s1.data_counter + m) k, hFa, hflatF,
        List.getD_append _ _ _ _ (by omega), hd2, Nat.zero_add]
    have hin := calls_emit_sim E F b.1 b.2 sr off1 off2 fp hcall s1 p1 f1 m s1m p1m f1m tr0
      hu1 hum hpend hsim hp hf (by omega) hlb hcnt hAE hAF
    obtain ⟨s1', p1', f1', m', s1m', p1m', f1m', tr', q1, q2, q3, q4, q5, q6, q7, q8⟩ := hin
    have hdF : sF.data_counter = 0 := callsEmit_final_dc b.1 b.2 sr off2 fp hcall
    have hpos : s1'.data_counter + m' = s1.data_counter + m + b.1.length := by omega
    have hEa' : E.drop (s1'.data_counter + m') = (bufs.map (fun x => x.1)).flatten := by
      rw [hpos, show s1.data_counter + m + b.1.length
          = s1.data_counter + m + b.1.length from rfl, ← List.drop_drop, hEa, hflat,
        List.drop_left]
    have hFa' : F.drop (s1'.data_counter + m') = (bufs.map (fun x => x.2)).flatten := by
      rw [hpos, ← List.drop_drop, hFa, hflatF, hlb, List.drop_left]
    have hout := ih s1' p1' f1' m' s1m' p1m' f1m' tr' e q1 q2 q4 hclean q5 q6 q7 hdF
      (by omega) hEa' hFa' (fun x hx => hlen x (List.mem_cons_of_mem b hx))
    exact q8 outs2 hout

/-- C2 (amended): with the peak-follower thresholds in use and a fresh
`data_counter`, splitting the sample stream across buffers does not change
the emitted packages, their codes, or the recorded pulse and gap contents,
whenever every interior buffer boundary is clean, i.e. the call that
exhausts a non-final buffer ends with the call-local `eop_on_spurious`
flag still clear.  The `sample_offset` arguments of the two runs may
differ: offsets only feed the side fields. -/
theorem c2_split_agreement (s : PulseDetect) (p f : PulseData)
    (bufs : List (List Int × List Int)) (sr off1 off2 : Nat) (fp : Bool)
    (outs1 outs2 : List (Nat × (Nat × (Nat → Int) × (Nat → Int)) × (Nat × (Nat → Int) × (Nat → Int))))
    (hpf : s.use_peak_follower = true)
    (hdc : s.data_counter = 0)
    (hlen : ∀ x ∈ bufs, x.1.length = x.2.length)
    (h1 : BufsEmit sr off1 fp s p f
      [((bufs.map (fun x => x.1)).flatten, (bufs.map (fun x => x.2)).flatten)] outs1)
    (h2 : BufsEmitClean sr off2 fp s p f bufs outs2) :
    outs1 = outs2 := by
  have hu : UnsplitFrom ((bufs.map (fun x => x.1)).flatten)
      ((bufs.map (fun x => x.2)).flatten) sr off1 fp s p f outs2 := by
    refine bufs_emit_sim _ _ sr off1 off2 fp h2 s p f 0
      { s with ook_high_estimate := max s.ook_high_estimate s.ook_min_high_level }
      (if s.data_counter = 0 then
        { p with start_ago := p.start_ago + ((bufs.map (fun x => x.1)).flatten).length }
       else p)
      (if s.data_counter = 0 then
        { f with start_ago := f.start_ago + ((bufs.map (fun x => x.1)).flatten).length }
       else f)
      [] false hpf hpf rfl (Or.inr rfl) (simS_entry_left (simS_refl s) _)
      (simP_entry_left (simP_refl p) _ _) (simP_entry_left (simP_refl f) _ _)
      hdc (by omega) ?_ ?_ hlen
    · rw [hdc, List.drop_zero]
    · rw [hdc, List.drop_zero]
  obtain ⟨sZ, pZ, fZ, eZ, hz⟩ := hu
  cases h1 with
  | cons s p f b bufs1 outsA outsB sF pF fF e hcallW hrestW =>
    cases hrestW with
    | nil =>
      have houts : outsA = outs2 := callsEmit_unique _ _ sr off1 fp hcallW hz
      rw [houts, List.append_nil]

/-- C2, the claim as stated, is false: the calling protocol over the whole
two-sample buffer emits one OOK package (the spurious-pulse flag forces the
gap to terminate at the second sample), while the same samples split into
two one-sample buffers emit nothing — the flag is call-local, so the gap
crossing the buffer boundary never terminates. -/
theorem c2_partition_counterexample :
    ¬ (∀ outs1 outs2,
        BufsEmit 1000 0 false exState exRecord pulse_data_clear
          [([0, 0], [0, 0])] outs1 →
        BufsEmit 1000 0 false exState exRecord pulse_data_clear
          [([0], [0]), ([0], [0])] outs2 →
        outs1 = outs2) := by
  intro hcl
  have hW : BufsEmit 1000 0 false exState exRecord pulse_data_clear [([0, 0], [0, 0])]
      (((pulse_detect_package exState exRecord pulse_data_clear
          [0, 0] [0, 0] 2 1000 0 false).code,
        eraseP (pulse_detect_package exState exRecord pulse_data_clear
          [0, 0] [0, 0] 2 1000 0 false).pulses,
        eraseP (pulse_detect_package exState exRecord pulse_data_clear
          [0, 0] [0, 0] 2 1000 0 false).fsk_pulses) :: []) := by
    refine BufsEmit.cons _ _ _ _ _ _ [] _ _ _ _
      (CallsEmit.emit _ _ _ [] _ _ _ _ (by decide)
        (CallsEmit.exhaust _ _ _ (by decide)))
      (BufsEmit.nil _ _ _)
  have hS : BufsEmit 1000 0 false exState exRecord pulse_data_clear
      [([0], [0]), ([0], [0])] [] := by
    refine BufsEmit.cons _ _ _ _ _ [] [] _ _ _ _
      (CallsEmit.exhaust _ _ _ (by decide)) ?_
    exact BufsEmit.cons _ _ _ _ _ [] [] _ _ _ _
      (CallsEmit.exhaust _ _ _ (by decide)) (BufsEmit.nil _ _ _)
  have h := hcl _ _ hW hS
  exact absurd h (by simp)

theorem c2_split_agreement_witness :
    exStateIdle.use_peak_follower = true
    ∧ BufsEmit 1000 0 false exStateIdle exRecord pulse_data_clear [([0], [0])] []
    ∧ BufsEmitClean 1000 7 false exStateIdle exRecord pulse_data_clear [([0], [0])] []
    ∧ ([] : List (Nat × (Nat × (Nat → Int) × (Nat → Int)) × (Nat × (Nat → Int) × (Nat → Int))))
        = [] := by
  have hW : BufsEmit 1000 0 false exStateIdle exRecord pulse_data_clear [([0], [0])] [] :=
    BufsEmit.cons _ _ _ _ _ [] [] _ _ _ _
      (CallsEmit.exhaust _ _ _ (by decide)) (BufsEmit.nil _ _ _)
  have hC : BufsEmitClean 1000 7 false exStateIdle exRecord pulse_data_clear
      [([0], [0])] [] :=
    BufsEmitClean.cons _ _ _ _ _ [] [] _ _ _ _
      (CallsEmit.exhaust _ _ _ (by decide)) (Or.inl rfl) (BufsEmitClean.nil _ _ _)
  exact ⟨rfl, hW, hC,
    c2_split_agreement exStateIdle exRecord pulse_data_clear [([0], [0])] 1000 0 7 false
      [] [] rfl rfl (by simp) hW hC⟩
